import Mathlib

/-! Operation-latency metrics of libcouchbase.

A shallow embedding of `src/meters.cc`, `src/meters.h` and the handle types of
`include/libcouchbase/metrics.h`.

* `std::string` is `String`, `std::vector` and `std::list` are `List`. Every
  string the entry points pass on is made from a C string, so `c_str()` and
  `%s` give the whole string.
* A C++ reference into a `std::list` or a `std::unordered_map` (both keep their
  nodes where they are, and the meters never erase) is the position of the node
  in insertion order.
* `lcb_U64` / `hrtime_t` values are natural numbers; the one subtraction of the
  source is taken modulo `2 ^ 64`.
* Foreign handles live in a heap addressed by natural numbers; function
  pointers are addresses that the host program interprets.
-/

namespace lcb

/-! ## Data model (`meters.h`, `metrics.h`) -/

/-- The `struct tag` of `meters.h`: a key and a value. -/
structure tag where
  key : String
  value : String
deriving DecidableEq, Repr

/-- The `lcbmetrics_TAG` of `metrics.h`, the tag as the host sees it. -/
structure lcbmetrics_TAG where
  key : String
  value : String
deriving DecidableEq, Repr

/-- The `#define METER_NAME` of `meters.cc`. -/
def METER_NAME : String := "com.couchbase.client.c"

/-- Modelled from the spec: the histogram library (`lcb_histogram_create`,
`lcb_histogram_record`, `lcb_histogram_print`, `lcb_histogram_destroy`) is only
called by the sources. A histogram is the collection of the durations recorded
since it was created; its `count` is their number. -/
structure lcb_HISTOGRAM where
  samples : List Nat
deriving DecidableEq, Repr

/-- Modelled from the spec: a new histogram has recorded nothing. -/
def lcb_histogram_create : lcb_HISTOGRAM := ⟨[]⟩

/-- Modelled from the spec: recording adds one duration. -/
def lcb_histogram_record (hg : lcb_HISTOGRAM) (duration : Nat) : lcb_HISTOGRAM :=
  ⟨hg.samples ++ [duration]⟩

/-- Modelled from the spec: the number of recordings held by the histogram. -/
def lcb_histogram_count (hg : lcb_HISTOGRAM) : Nat := hg.samples.length

/-- The part of `lcb_settings` the meters read. -/
structure lcb_settings where
  op_metrics_enabled : Bool
  op_metrics_flush_interval : Nat
deriving DecidableEq, Repr

/-- Modelled from the spec: `lcb::io::Timer` is only used by the sources. An
armed timer has one pending expiry, an absolute time in microseconds. -/
structure Timer where
  expiry : Option Nat
deriving DecidableEq, Repr

/-- Modelled from the spec: `rearm(usec)` at time `now` replaces whatever was
pending by an expiry `usec` later. -/
def Timer.rearm (_t : Timer) (now usec : Nat) : Timer := ⟨some (now + usec)⟩

/-- `std::find_if` over a list, as the position of the first match. -/
def find_if {α : Type} (p : α → Bool) : List α → Option Nat
  | [] => none
  | x :: xs => if p x then some 0 else (find_if p xs).map (· + 1)

/-! ## The aggregating recorder and meter -/

/-- `class AggregatingValueRecorder`. -/
structure AggregatingValueRecorder where
  name_ : String
  tags_ : List tag
  histogram_ : lcb_HISTOGRAM
deriving DecidableEq, Repr

/-- `AggregatingValueRecorder::AggregatingValueRecorder(name, tags)`. -/
def AggregatingValueRecorder.create (name : String) (tags : List tag) :
    AggregatingValueRecorder :=
  { name_ := name, tags_ := tags, histogram_ := lcb_histogram_create }

/-- `AggregatingValueRecorder::recordValue`. -/
def AggregatingValueRecorder.recordValue (r : AggregatingValueRecorder) (value : Nat) :
    AggregatingValueRecorder :=
  { r with histogram_ := lcb_histogram_record r.histogram_ value }

/-- `AggregatingValueRecorder::name`. -/
def AggregatingValueRecorder.name (r : AggregatingValueRecorder) : String := r.name_

/-- `AggregatingValueRecorder::tags`. -/
def AggregatingValueRecorder.tags (r : AggregatingValueRecorder) : List tag := r.tags_

/-- The first `fprintf` of `AggregatingValueRecorder::flush` and its loop over
the tags, up to and including the closing line: the header of a report. -/
def AggregatingValueRecorder.header (r : AggregatingValueRecorder) (stream : String) : String :=
  (r.tags_.foldl (fun s t => s ++ " " ++ t.key ++ "=" ++ t.value ++ " ")
    (stream ++ METER_NAME ++ ", tags: \x7b")) ++ "\x7d\n"

/-- `AggregatingValueRecorder::flush(stream)`: header, histogram print
(`print` stands for `lcb_histogram_print`), then the histogram is destroyed and
a new one created. The stream is the text written to it so far. -/
def AggregatingValueRecorder.flush (print : lcb_HISTOGRAM → String)
    (r : AggregatingValueRecorder) (stream : String) : AggregatingValueRecorder × String :=
  ({ r with histogram_ := lcb_histogram_create }, r.header stream ++ print r.histogram_)

/-- What a flush does to the world outside the meter, in order. -/
inductive Effect where
  | rearm (usec : Nat)
  | log (subsys : String) (text : String)
deriving DecidableEq, Repr

/-- `class AggregatingMeter`; `lcb_` is the instance whose settings the meter
reads, they are passed in where they are read. -/
structure AggregatingMeter where
  timer_ : Timer
  valueRecorders_ : List AggregatingValueRecorder
deriving DecidableEq, Repr

/-- `AggregatingMeter::AggregatingMeter(lcb)` at time `now`. -/
def AggregatingMeter.create (settings : lcb_settings) (now : Nat) : AggregatingMeter :=
  { timer_ := Timer.rearm ⟨none⟩ now settings.op_metrics_flush_interval, valueRecorders_ := [] }

/-- `AggregatingMeter::valueRecorder(name, tags)`: the meter afterwards and the
recorder referred to. -/
def AggregatingMeter.valueRecorder (m : AggregatingMeter) (name : String) (tags : List tag) :
    AggregatingMeter × Nat :=
  match find_if (fun r => name == r.name) m.valueRecorders_ with
  | some it => (m, it)
  | none =>
    ({ m with valueRecorders_ := m.valueRecorders_ ++ [AggregatingValueRecorder.create name tags] },
      m.valueRecorders_.length)

/-- The `for` loop of `AggregatingMeter::flush` from its `i`-th round on.
`pipe_ok i` tells whether `pipe` and `fcntl` succeed in round `i`; if so the
recorder is flushed into the pipe, the pipe is read back whole (`fdopen`
succeeds and the pipe holds the report) and the text is passed to `lcb_log`. -/
def AggregatingMeter.flush_loop (print : lcb_HISTOGRAM → String) (pipe_ok : Nat → Bool) :
    Nat → List AggregatingValueRecorder → List AggregatingValueRecorder × List Effect
  | _, [] => ([], [])
  | i, r :: rs =>
    if pipe_ok i then
      let flushed := r.flush print ""
      let rest := AggregatingMeter.flush_loop print pipe_ok (i + 1) rs
      (flushed.1 :: rest.1, Effect.log "op_metrics" flushed.2 :: rest.2)
    else
      let rest := AggregatingMeter.flush_loop print pipe_ok (i + 1) rs
      (r :: rest.1, rest.2)

/-- `AggregatingMeter::flush()`, run at time `now`: the timer is re-armed with
the interval the settings hold now, then the recorders are gone through. -/
def AggregatingMeter.flush (print : lcb_HISTOGRAM → String) (settings : lcb_settings)
    (now : Nat) (pipe_ok : Nat → Bool) (m : AggregatingMeter) : AggregatingMeter × List Effect :=
  let timer := m.timer_.rearm now settings.op_metrics_flush_interval
  let done := AggregatingMeter.flush_loop print pipe_ok 0 m.valueRecorders_
  ({ timer_ := timer, valueRecorders_ := done.1 },
    Effect.rearm settings.op_metrics_flush_interval :: done.2)

/-! ## The foreign boundary: handles, host callbacks, the external meter -/

/-- The `struct lcbmetrics_METER_` of `meters.h`: the host cookie and the
create-recorder function pointer. -/
structure lcbmetrics_METER where
  cookie : Nat
  new_recorder : Nat
deriving DecidableEq, Repr

/-- The `struct lcbmetrics_RECORDER_` of `meters.h`: the host cookie and the
record-value function pointer. -/
structure lcbmetrics_RECORDER where
  cookie : Nat
  record_value : Nat
deriving DecidableEq, Repr

/-- Everything a host callback can read and change: the state of the host
program and the handles allocated so far, each under its address. -/
structure Foreign (σ : Type) where
  host : σ
  meters : List (Nat × lcbmetrics_METER)
  recorders : List (Nat × lcbmetrics_RECORDER)

/-- One call through a function pointer of a foreign handle, with the pointer
called and the arguments passed. The tag array argument is a pointer: `none`
when it points to no element, else the array that starts where it points. -/
inductive Call where
  | new_recorder (fn : Nat) (meter : Nat) (name : String)
      (tags : Option (List lcbmetrics_TAG)) (num_tags : Nat)
  | record_value (fn : Nat) (recorder : Nat) (value : Nat)
deriving DecidableEq, Repr

/-- The host program: what calling a function pointer as an
`lcbmetrics_CREATE_RECORDER` or as an `lcbmetrics_RECORD_VALUE` does. -/
structure Host (σ : Type) where
  new_recorder : Nat → Nat → String → Option (List lcbmetrics_TAG) → Nat →
    Foreign σ → Nat × Foreign σ
  record_value : Nat → Nat → Nat → Foreign σ → Foreign σ

/-- The foreign side together with the record of the calls made into it. -/
structure World (σ : Type) where
  foreign : Foreign σ
  calls : List Call

/-- `&v.front()`: the address of the first element, which exists only in a
vector that is not empty; the array starting there is the whole vector.
`front()` of an empty vector has no value. -/
def front_ptr {α : Type} (v : List α) : Option (List α) :=
  match v with
  | [] => none
  | x :: xs => some (x :: xs)

/-- `class CustomValueRecorder`: the address of the foreign recorder handle. -/
structure CustomValueRecorder where
  recorder_ : Nat
deriving DecidableEq, Repr

/-- `CustomValueRecorder::recordValue(value)`: the handle is read and its
`record_value` is called with the handle and the value. Nothing is returned
when the handle is not there to be read. -/
def CustomValueRecorder.recordValue {σ : Type} (h : Host σ) (r : CustomValueRecorder)
    (value : Nat) (w : World σ) : Option (World σ) :=
  match w.foreign.recorders.lookup r.recorder_ with
  | none => none
  | some recorder =>
    some { foreign := h.record_value recorder.record_value r.recorder_ value w.foreign,
           calls := w.calls ++ [Call.record_value recorder.record_value r.recorder_ value] }

/-- `class CustomMeter`: the address of the foreign meter handle and the
`unordered_map` from names to recorders, in insertion order. -/
structure CustomMeter where
  meter_ : Nat
  valueRecorders_ : List (String × CustomValueRecorder)
deriving DecidableEq, Repr

/-- `CustomMeter::CustomMeter(meter)`. -/
def CustomMeter.create (meter : Nat) : CustomMeter :=
  { meter_ := meter, valueRecorders_ := [] }

/-- `CustomMeter::valueRecorder(name, tags)`: the meter afterwards, the
recorder referred to and the world afterwards. `find` has failed when `emplace`
runs, so `emplace` inserts. Nothing is returned when `callback_tags` is empty,
where `callback_tags.front()` has no element to refer to, nor when the meter
handle is not there to be read. -/
def CustomMeter.valueRecorder {σ : Type} (h : Host σ) (m : CustomMeter) (name : String)
    (tags : List tag) (w : World σ) : Option (CustomMeter × Nat × World σ) :=
  match find_if (fun e => e.1 == name) m.valueRecorders_ with
  | some it => some (m, it, w)
  | none =>
    let callback_tags : List lcbmetrics_TAG := tags.map (fun t => ⟨t.key, t.value⟩)
    match front_ptr callback_tags with
    | none => none
    | some tag_array =>
      match w.foreign.meters.lookup m.meter_ with
      | none => none
      | some meter =>
        let made := h.new_recorder meter.new_recorder m.meter_ name (some tag_array)
          tags.length w.foreign
        some ({ m with valueRecorders_ := m.valueRecorders_ ++ [(name, ⟨made.1⟩)] },
          m.valueRecorders_.length,
          { foreign := made.2,
            calls := w.calls ++ [Call.new_recorder meter.new_recorder m.meter_ name
              (some tag_array) tags.length] })

/-! ## The `Meter` interface and the recording entry points -/

/-- `class Meter` with its two implementations. -/
inductive Meter where
  | custom (m : CustomMeter)
  | aggregating (m : AggregatingMeter)
deriving DecidableEq, Repr

/-- The virtual `Meter::valueRecorder`. -/
def Meter.valueRecorder {σ : Type} (h : Host σ) (M : Meter) (name : String) (tags : List tag)
    (w : World σ) : Option (Meter × Nat × World σ) :=
  match M with
  | .custom m => (m.valueRecorder h name tags w).map fun r => (.custom r.1, r.2.1, r.2.2)
  | .aggregating m => some (.aggregating (m.valueRecorder name tags).1, (m.valueRecorder name tags).2, w)

/-- The virtual `ValueRecorder::recordValue` on the recorder a reference of
`valueRecorder` refers to. -/
def Meter.recordValue {σ : Type} (h : Host σ) (M : Meter) (ref : Nat) (value : Nat)
    (w : World σ) : Option (Meter × World σ) :=
  match M with
  | .custom m =>
    match m.valueRecorders_[ref]? with
    | none => none
    | some e => (e.2.recordValue h value w).map fun w1 => (M, w1)
  | .aggregating m =>
    match m.valueRecorders_[ref]? with
    | none => none
    | some r =>
      some (.aggregating { m with valueRecorders_ := m.valueRecorders_.set ref (r.recordValue value) }, w)

/-- The number of recorders a meter owns. -/
def Meter.size (M : Meter) : Nat :=
  match M with
  | .custom m => m.valueRecorders_.length
  | .aggregating m => m.valueRecorders_.length

/-- The names of the recorders a meter owns, in the meter's order. -/
def Meter.names (M : Meter) : List String :=
  match M with
  | .custom m => m.valueRecorders_.map (·.1)
  | .aggregating m => m.valueRecorders_.map (·.name)

/-- A finite sequence of `valueRecorder` calls on one meter, one after the
other: the meter afterwards, the references returned, and the world
afterwards. -/
def Meter.valueRecorders {σ : Type} (h : Host σ) :
    List (String × List tag) → Meter → World σ → Option (Meter × List Nat × World σ)
  | [], M, w => some (M, [], w)
  | c :: cs, M, w =>
    match M.valueRecorder h c.1 c.2 w with
    | none => none
    | some r =>
      match Meter.valueRecorders h cs r.1 r.2.2 with
      | none => none
      | some rs => some (rs.1, r.2.1 :: rs.2.1, rs.2.2)

/-- The part of `lcb_INSTANCE` the recording entry points read: the settings
and the meter, which may be null. -/
structure lcb_INSTANCE where
  settings : lcb_settings
  op_metrics : Option Meter
deriving DecidableEq, Repr

/-- `create_tags(op, svc)`; a null pointer is `none`. -/
def create_tags (op svc : Option String) : List tag :=
  match svc with
  | some s =>
    match op with
    | some o => [⟨"db.couchbase.service", s⟩, ⟨"db.operation", o⟩]
    | none => [⟨"db.couchbase.service", s⟩]
  | none => []

/-- `gethrtime() - start` on `hrtime_t`, an unsigned 64-bit integer. -/
def hrtime_diff (now start : Nat) : Nat := (now + 2 ^ 64 - start % 2 ^ 64) % 2 ^ 64

/-- The statement `meter->valueRecorder(name, tags).recordValue(value)`. -/
def Meter.record {σ : Type} (h : Host σ) (M : Meter) (name : String) (tags : List tag)
    (value : Nat) (w : World σ) : Option (Meter × World σ) :=
  match M.valueRecorder h name tags w with
  | none => none
  | some r => r.1.recordValue h r.2.1 value r.2.2

/-- `record_op_latency(op, svc, instance, request)`: `start` is the start time
in the request, `hrtime` what `gethrtime()` returns. The recorder name is a
`std::string` made from `op`, which has no value for a null pointer. -/
def record_op_latency {σ : Type} (h : Host σ) (op svc : Option String) (inst : lcb_INSTANCE)
    (start hrtime : Nat) (w : World σ) : Option (lcb_INSTANCE × World σ) :=
  if inst.settings.op_metrics_enabled then
    match inst.op_metrics with
    | none => some (inst, w)
    | some M =>
      match op with
      | none => none
      | some name =>
        (M.record h name (create_tags op svc) (hrtime_diff hrtime start) w).map
          fun r => ({ inst with op_metrics := some r.1 }, r.2)
  else some (inst, w)

/-- `record_kv_op_latency(op, instance, request)`. -/
def record_kv_op_latency {σ : Type} (h : Host σ) (op : Option String) (inst : lcb_INSTANCE)
    (start hrtime : Nat) (w : World σ) : Option (lcb_INSTANCE × World σ) :=
  record_op_latency h op (some "kv") inst start hrtime w

/-- `record_http_op_latency(op, svc, instance, start)`. -/
def record_http_op_latency {σ : Type} (h : Host σ) (op svc : Option String)
    (inst : lcb_INSTANCE) (start hrtime : Nat) (w : World σ) :
    Option (lcb_INSTANCE × World σ) :=
  match svc with
  | none => some (inst, w)
  | some name =>
    if inst.settings.op_metrics_enabled then
      match inst.op_metrics with
      | none => some (inst, w)
      | some M =>
        (M.record h name (create_tags op svc) (hrtime_diff hrtime start) w).map
          fun r => ({ inst with op_metrics := some r.1 }, r.2)
    else some (inst, w)

/-- Modelled from the spec: the enumeration `lcb_STORE_OPERATION` is declared
outside the sources. Its five enumerators named by
`op_name_from_store_operation`, and any other value by its number. -/
inductive lcb_STORE_OPERATION where
  | LCB_STORE_INSERT
  | LCB_STORE_REPLACE
  | LCB_STORE_APPEND
  | LCB_STORE_PREPEND
  | LCB_STORE_UPSERT
  | other (value : Nat)
deriving DecidableEq, Repr

/-- `op_name_from_store_operation(operation)`. -/
def op_name_from_store_operation (operation : lcb_STORE_OPERATION) : String :=
  match operation with
  | .LCB_STORE_INSERT => "insert"
  | .LCB_STORE_REPLACE => "replace"
  | .LCB_STORE_APPEND => "append"
  | .LCB_STORE_PREPEND => "prepend"
  | .LCB_STORE_UPSERT => "upsert"
  | .other _ => "unknown"

/-- `record_kv_op_latency_store(instance, request, response)`; `response_op`
is `response->op`. -/
def record_kv_op_latency_store {σ : Type} (h : Host σ) (inst : lcb_INSTANCE)
    (start hrtime : Nat) (response_op : lcb_STORE_OPERATION) (w : World σ) :
    Option (lcb_INSTANCE × World σ) :=
  record_kv_op_latency h (some (op_name_from_store_operation response_op)) inst start hrtime w

/-! ## The handle functions of `tracing.cc` -/

/-- Modelled from the spec: the status type `lcb_STATUS` is declared outside
the sources; the success status and the other codes. -/
inductive lcb_STATUS where
  | LCB_SUCCESS
  | failure (code : Nat)
deriving DecidableEq, Repr

/-- A write through a pointer into a heap of handles: the handle at address
`p` is replaced. -/
def store_handle {α : Type} (p : Nat) (v : α) (heap : List (Nat × α)) : List (Nat × α) :=
  heap.map (fun e => if e.1 == p then (e.1, v) else e)

/-- `lcbmetrics_meter_create(pmeter, cookie)`: `addr` is the address `new`
returns and `junk` what the field `new_recorder`, which is not set, holds. The
result is the status, `*pmeter` and the heap. -/
def lcbmetrics_meter_create {σ : Type} (addr junk : Nat) (cookie : Nat) (f : Foreign σ) :
    lcb_STATUS × Nat × Foreign σ :=
  (.LCB_SUCCESS, addr, { f with meters := (addr, ⟨cookie, junk⟩) :: f.meters })

/-- `lcbmetrics_meter_create_recorder_callback(meter, recorder)`; nothing is
returned when there is no handle at `meter` to write to. -/
def lcbmetrics_meter_create_recorder_callback {σ : Type} (meter : Nat) (recorder : Nat)
    (f : Foreign σ) : Option (lcb_STATUS × Foreign σ) :=
  match f.meters.lookup meter with
  | none => none
  | some m =>
    some (.LCB_SUCCESS,
      { f with meters := store_handle meter { m with new_recorder := recorder } f.meters })

/-- `lcbmetrics_meter_cookie(meter, cookie)`: the status, `*cookie` and the
heap; nothing is returned when there is no handle at `meter` to read. -/
def lcbmetrics_meter_cookie {σ : Type} (meter : Nat) (f : Foreign σ) :
    Option (lcb_STATUS × Nat × Foreign σ) :=
  match f.meters.lookup meter with
  | none => none
  | some m => some (.LCB_SUCCESS, m.cookie, f)

/-- `lcbmetrics_recorder_create(recorder, cookie)`: `addr` is the address `new`
returns and `junk` what the field `record_value`, which is not set, holds. -/
def lcbmetrics_recorder_create {σ : Type} (addr junk : Nat) (cookie : Nat) (f : Foreign σ) :
    lcb_STATUS × Nat × Foreign σ :=
  (.LCB_SUCCESS, addr, { f with recorders := (addr, ⟨cookie, junk⟩) :: f.recorders })

/-- `lcbmetrics_recorder_cookie(recorder, cookie)`. -/
def lcbmetrics_recorder_cookie {σ : Type} (recorder : Nat) (f : Foreign σ) :
    Option (lcb_STATUS × Nat × Foreign σ) :=
  match f.recorders.lookup recorder with
  | none => none
  | some r => some (.LCB_SUCCESS, r.cookie, f)

/-- `lcbmetrics_recorder_record_value_callback(recorder, callback)`. -/
def lcbmetrics_recorder_record_value_callback {σ : Type} (recorder : Nat) (callback : Nat)
    (f : Foreign σ) : Option (lcb_STATUS × Foreign σ) :=
  match f.recorders.lookup recorder with
  | none => none
  | some r =>
    some (.LCB_SUCCESS,
      { f with recorders := store_handle recorder { r with record_value := callback } f.recorders })

/-! ## Vocabulary of the statements -/

/-- The recorder a meter holds under a name, as the reference `valueRecorder`
returns for it. -/
def Meter.find (M : Meter) (name : String) : Option Nat :=
  find_if (fun n => n == name) M.names

/-- The number of names in a sequence of requests that are new to a meter
holding `present`, each counted at its first request. -/
def created (present : List String) : List String → Nat
  | [] => 0
  | n :: ns => if n ∈ present then created present ns else created (present ++ [n]) ns + 1

/-- Whether a meter is the external one, whose creation path reads
`callback_tags.front()`. -/
def Meter.external (M : Meter) : Bool :=
  match M with
  | .custom _ => true
  | .aggregating _ => false

/-- Every request in the sequence that asks for a name for the first time, the
meter holding `present`, comes with at least one tag. -/
def first_requests_tagged (present : List String) : List (String × List tag) → Bool
  | [] => true
  | c :: cs =>
    if c.1 ∈ present then first_requests_tagged present cs
    else !c.2.isEmpty && first_requests_tagged (present ++ [c.1]) cs

/-- The requests an external meter can serve: those that ask for a name it
does not hold yet carry at least one tag. An aggregating meter serves all. -/
def Meter.serves (M : Meter) (calls : List (String × List tag)) : Prop :=
  M.external = true → first_requests_tagged M.names calls = true

/-- The host leaves the meter handle at address `p` as it is whenever its
create-recorder callback runs. -/
def Host.keeps_meter {σ : Type} (h : Host σ) (p : Nat) : Prop :=
  ∀ fn meter name tags n f,
    (h.new_recorder fn meter name tags n f).2.meters.lookup p = f.meters.lookup p

/-- An external meter is ready when its foreign handle is allocated and the
host keeps it; an aggregating meter always is. -/
def Meter.ready {σ : Type} (h : Host σ) (M : Meter) (w : World σ) : Prop :=
  match M with
  | .custom m => (w.foreign.meters.lookup m.meter_).isSome = true ∧ h.keeps_meter m.meter_
  | .aggregating _ => True

/-- The reports a flush has handed to the log, in order. -/
def reports : List Effect → List String
  | [] => []
  | Effect.log _ text :: es => text :: reports es
  | Effect.rearm _ :: es => reports es

/-- The tags of a recorder as they follow each other in a report header. -/
def tags_text : List tag → String
  | [] => ""
  | t :: ts => " " ++ t.key ++ "=" ++ t.value ++ " " ++ tags_text ts

/-- Modelled from the spec: the event loop, which is not among the sources,
invokes the callback of an armed timer when its expiry is reached. One firing
of the flush timer: `flush` runs at the expiry, with the settings of then. -/
def AggregatingMeter.fire (print : lcb_HISTOGRAM → String) (settings : lcb_settings)
    (pipe_ok : Nat → Bool) (m : AggregatingMeter) : Option (Nat × AggregatingMeter) :=
  match m.timer_.expiry with
  | none => none
  | some t => some (t, (m.flush print settings t pipe_ok).1)

/-- A call of a record-value callback. -/
def Call.is_record_value : Call → Bool
  | .record_value _ _ _ => true
  | .new_recorder _ _ _ _ _ => false

/-- A create-recorder call whose tag array has a first element, with key
`db.couchbase.service`, and whose tag count is the length of the array; a
record-value call has no tag array. -/
def Call.service_first : Call → Prop
  | .new_recorder _ _ _ tags num_tags =>
    ∃ v rest, tags = some (⟨"db.couchbase.service", v⟩ :: rest) ∧ num_tags = rest.length + 1
  | .record_value _ _ _ => True

/-- The host's create-recorder callback returns the address of a recorder
handle that is allocated when it returns. -/
def Host.returns_allocated {σ : Type} (h : Host σ) : Prop :=
  ∀ fn meter name tags n f,
    ((h.new_recorder fn meter name tags n f).2.recorders.lookup
      (h.new_recorder fn meter name tags n f).1).isSome = true

/-- The foreign recorder handles an external meter holds are allocated; an
aggregating meter holds none. -/
def Meter.handles_allocated {σ : Type} (M : Meter) (w : World σ) : Prop :=
  match M with
  | .custom m => ∀ e ∈ m.valueRecorders_, (w.foreign.recorders.lookup e.2.recorder_).isSome = true
  | .aggregating _ => True

/-! ## A concrete host, for instances of the statements -/

/-- A host whose create-recorder callback allocates a recorder handle at the
next free address, with cookie `0` and record-value callback `7`, and counts
the recorded values. -/
def sample_host : Host Nat where
  new_recorder := fun _ _ _ _ _ f =>
    (f.recorders.length + 100,
      { f with recorders := f.recorders ++ [(f.recorders.length + 100, ⟨0, 7⟩)] })
  record_value := fun _ _ _ f => { f with host := f.host + 1 }

/-- A world with one meter handle, at address `1`, with cookie `0` and
create-recorder callback `5`, and no call made yet. -/
def sample_world : World Nat :=
  { foreign := { host := 0, meters := [(1, ⟨0, 5⟩)], recorders := [] }, calls := [] }

/-! ## Lemmas on `find_if` -/

theorem find_if_lt {α : Type} (p : α → Bool) (l : List α) (i : Nat)
    (hf : find_if p l = some i) : i < l.length := by
  induction l generalizing i with
  | nil => simp [find_if] at hf
  | cons x xs ih =>
    simp only [find_if] at hf
    split at hf
    · simp only [Option.some.injEq] at hf
      subst hf
      simp
    · cases hr : find_if p xs with
      | none => simp [hr] at hf
      | some j =>
        simp only [hr, Option.map_some', Option.some.injEq] at hf
        subst hf
        have := ih j hr
        simp only [List.length_cons]
        omega

theorem find_if_get {α : Type} (p : α → Bool) (l : List α) (i : Nat)
    (hf : find_if p l = some i) : ∃ x, l[i]? = some x ∧ p x = true := by
  induction l generalizing i with
  | nil => simp [find_if] at hf
  | cons x xs ih =>
    simp only [find_if] at hf
    split at hf
    · rename_i hp
      simp only [Option.some.injEq] at hf
      subst hf
      exact ⟨x, by simp, hp⟩
    · cases hr : find_if p xs with
      | none => simp [hr] at hf
      | some j =>
        simp only [hr, Option.map_some', Option.some.injEq] at hf
        subst hf
        obtain ⟨y, hy, hpy⟩ := ih j hr
        exact ⟨y, by simpa using hy, hpy⟩

theorem find_if_none_iff {α : Type} (p : α → Bool) (l : List α) :
    find_if p l = none ↔ ∀ x ∈ l, p x = false := by
  induction l with
  | nil => simp [find_if]
  | cons x xs ih =>
    simp only [find_if, List.mem_cons, forall_eq_or_imp]
    by_cases hp : p x = true
    · simp [hp]
    · simp only [hp, Bool.false_eq_true, if_false, Option.map_eq_none', ih]
      simp [Bool.not_eq_true _ |>.mp hp]

theorem find_if_append_some {α : Type} (p : α → Bool) (l l2 : List α) (i : Nat)
    (hf : find_if p l = some i) : find_if p (l ++ l2) = some i := by
  induction l generalizing i with
  | nil => simp [find_if] at hf
  | cons x xs ih =>
    simp only [find_if, List.cons_append] at hf ⊢
    split at hf
    · rename_i hp
      simp [hp, hf]
    · rename_i hp
      cases hr : find_if p xs with
      | none => simp [hr] at hf
      | some j =>
        simp only [hr, Option.map_some', Option.some.injEq] at hf
        simp [hp, ih j hr, hf]

theorem find_if_append_none {α : Type} (p : α → Bool) (l l2 : List α)
    (hf : find_if p l = none) :
    find_if p (l ++ l2) = (find_if p l2).map (· + l.length) := by
  induction l with
  | nil => simp
  | cons x xs ih =>
    simp only [find_if, List.cons_append] at hf ⊢
    split at hf
    · simp at hf
    · rename_i hp
      simp only [Option.map_eq_none'] at hf
      simp only [List.append_eq] at ih ⊢
      rw [if_neg hp, ih hf, Option.map_map]
      rfl

theorem find_if_map {α β : Type} (f : α → β) (p : β → Bool) (l : List α) :
    find_if p (l.map f) = find_if (fun a => p (f a)) l := by
  induction l with
  | nil => rfl
  | cons x xs ih => simp [find_if, ih]

/-! ## One `valueRecorder` call -/

theorem created_eq_card (present names : List String) :
    created present names = (names.toFinset \ present.toFinset).card := by
  induction names generalizing present with
  | nil => simp [created]
  | cons n ns ih =>
    simp only [created, List.toFinset_cons]
    split
    · rename_i hin
      rw [ih, Finset.insert_sdiff_of_mem _ (List.mem_toFinset.mpr hin)]
    · rename_i hin
      have hn : n ∉ present.toFinset := fun hc => hin (List.mem_toFinset.mp hc)
      rw [ih, Finset.insert_sdiff_of_not_mem _ hn, List.toFinset_append, List.toFinset_cons,
        List.toFinset_nil]
      have he : ns.toFinset \ (present.toFinset ∪ insert n ∅) =
          (ns.toFinset \ present.toFinset).erase n := by
        ext x
        simp only [Finset.mem_sdiff, Finset.mem_union, Finset.mem_insert, Finset.not_mem_empty,
          or_false, Finset.mem_erase, List.mem_toFinset]
        tauto
      have hi : insert n ((ns.toFinset \ present.toFinset).erase n) =
          insert n (ns.toFinset \ present.toFinset) := by
        ext x
        simp only [Finset.mem_insert, Finset.mem_erase]
        tauto
      rw [he, ← Finset.card_insert_of_not_mem (Finset.not_mem_erase n _), hi]

theorem created_nil (names : List String) : created [] names = names.dedup.length := by
  rw [created_eq_card, List.toFinset_nil, Finset.sdiff_empty, List.card_toFinset]

theorem Meter.size_eq (M : Meter) : M.size = M.names.length := by
  cases M <;> simp [Meter.size, Meter.names]

theorem Meter.find_custom (m : CustomMeter) (name : String) :
    (Meter.custom m).find name = find_if (fun e => e.1 == name) m.valueRecorders_ := by
  simp [Meter.find, Meter.names, find_if_map]

theorem Meter.find_aggregating (m : AggregatingMeter) (name : String) :
    (Meter.aggregating m).find name = find_if (fun r => name == r.name) m.valueRecorders_ := by
  simp only [Meter.find, Meter.names, find_if_map]
  congr 1
  funext r
  rw [Bool.eq_iff_iff, beq_iff_eq, beq_iff_eq]
  exact eq_comm

theorem Meter.find_none_iff (M : Meter) (name : String) :
    M.find name = none ↔ name ∉ M.names := by
  simp only [Meter.find, find_if_none_iff]
  constructor
  · intro hall hin
    simpa using hall name hin
  · intro hn x hx
    simp only [beq_eq_false_iff_ne, ne_eq]
    rintro rfl
    exact hn hx

theorem front_ptr_spec {α : Type} (v : List α) :
    (∀ a, front_ptr v = some a → a = v) ∧ (v ≠ [] → front_ptr v = some v) := by
  cases v with
  | nil => exact ⟨fun a ha => Option.noConfusion ha, fun hc => absurd rfl hc⟩
  | cons x xs => exact ⟨fun a ha => (Option.some.inj ha).symm, fun _ => rfl⟩

theorem front_ptr_map {α β : Type} (f : α → β) (v : List α) (hne : v ≠ []) :
    front_ptr (v.map f) = some (v.map f) :=
  (front_ptr_spec _).2 (by simpa using hne)

theorem CustomMeter.valueRecorder_found {σ : Type} (h : Host σ) (m : CustomMeter)
    (name : String) (tags : List tag) (w : World σ) (i : Nat)
    (hf : find_if (fun e => e.1 == name) m.valueRecorders_ = some i) :
    m.valueRecorder h name tags w = some (m, i, w) := by
  simp only [CustomMeter.valueRecorder, hf]

theorem CustomMeter.valueRecorder_untagged {σ : Type} (h : Host σ) (m : CustomMeter)
    (name : String) (w : World σ)
    (hf : find_if (fun e => e.1 == name) m.valueRecorders_ = none) :
    m.valueRecorder h name [] w = none := by
  simp only [CustomMeter.valueRecorder, hf, List.map_nil, front_ptr]

theorem CustomMeter.valueRecorder_new {σ : Type} (h : Host σ) (m : CustomMeter)
    (name : String) (tags : List tag) (w : World σ) (meter : lcbmetrics_METER)
    (hne : tags ≠ [])
    (hf : find_if (fun e => e.1 == name) m.valueRecorders_ = none)
    (hm : w.foreign.meters.lookup m.meter_ = some meter) :
    m.valueRecorder h name tags w = some
      ({ m with valueRecorders_ := m.valueRecorders_ ++ [(name, ⟨(h.new_recorder
          meter.new_recorder m.meter_ name (front_ptr (tags.map fun t => ⟨t.key, t.value⟩))
          tags.length w.foreign).1⟩)] },
        m.valueRecorders_.length,
        { foreign := (h.new_recorder meter.new_recorder m.meter_ name
            (front_ptr (tags.map fun t => ⟨t.key, t.value⟩)) tags.length w.foreign).2,
          calls := w.calls ++ [Call.new_recorder meter.new_recorder m.meter_ name
            (front_ptr (tags.map fun t => ⟨t.key, t.value⟩)) tags.length] }) := by
  have hfp := front_ptr_map (fun t : tag => lcbmetrics_TAG.mk t.key t.value) tags hne
  simp only [CustomMeter.valueRecorder, hf, hm, hfp]

/-- One call on a ready meter, with at least one tag when an external meter
is asked for a name it does not hold, returns; the meter stays ready, holds the
name afterwards under the reference returned, keeps every reference it had, and
a name it already held changes neither the meter nor the world. -/
theorem Meter.valueRecorder_step {σ : Type} (h : Host σ) (M : Meter) (name : String)
    (tags : List tag) (w : World σ) (hr : M.ready h w)
    (ht : M.external = true → name ∈ M.names ∨ tags ≠ []) :
    ∃ M1 ref w1, M.valueRecorder h name tags w = some (M1, ref, w1) ∧ M1.ready h w1 ∧
      M1.names = (if name ∈ M.names then M.names else M.names ++ [name]) ∧
      M1.find name = some ref ∧
      (name ∈ M.names → M1 = M ∧ w1 = w) ∧
      M1.external = M.external := by
  cases M with
  | aggregating m =>
    cases hf : find_if (fun r => name == r.name) m.valueRecorders_ with
    | some i =>
      have hin : name ∈ (Meter.aggregating m).names := by
        by_contra hc
        rw [← Meter.find_none_iff, Meter.find_aggregating, hf] at hc
        exact Option.noConfusion hc
      refine ⟨.aggregating m, i, w, ?_, trivial, by rw [if_pos hin], ?_, fun _ => ⟨rfl, rfl⟩,
        rfl⟩
      · simp [Meter.valueRecorder, AggregatingMeter.valueRecorder, hf]
      · rw [Meter.find_aggregating, hf]
    | none =>
      have hin : name ∉ (Meter.aggregating m).names := by
        rw [← Meter.find_none_iff, Meter.find_aggregating, hf]
      have hv : (Meter.aggregating m).valueRecorder h name tags w = some
          (.aggregating { m with valueRecorders_ :=
            m.valueRecorders_ ++ [AggregatingValueRecorder.create name tags] },
            m.valueRecorders_.length, w) := by
        simp only [Meter.valueRecorder, AggregatingMeter.valueRecorder, hf]
      refine ⟨_, _, _, hv, trivial, ?_, ?_, fun hc => absurd hc hin, rfl⟩
      · rw [if_neg hin]
        simp [Meter.names, AggregatingValueRecorder.create, AggregatingValueRecorder.name]
      · rw [Meter.find_aggregating]
        simp only
        rw [find_if_append_none _ _ _ hf]
        simp [find_if, AggregatingValueRecorder.create, AggregatingValueRecorder.name]
  | custom m =>
    obtain ⟨hlive, hkeep⟩ := hr
    cases hf : find_if (fun e => e.1 == name) m.valueRecorders_ with
    | some i =>
      have hin : name ∈ (Meter.custom m).names := by
        by_contra hc
        rw [← Meter.find_none_iff, Meter.find_custom, hf] at hc
        exact Option.noConfusion hc
      refine ⟨.custom m, i, w, ?_, ⟨hlive, hkeep⟩, by rw [if_pos hin], ?_, fun _ => ⟨rfl, rfl⟩,
        rfl⟩
      · simp [Meter.valueRecorder, CustomMeter.valueRecorder, hf]
      · rw [Meter.find_custom, hf]
    | none =>
      have hin : name ∉ (Meter.custom m).names := by
        rw [← Meter.find_none_iff, Meter.find_custom, hf]
      have hne : tags ≠ [] := (ht rfl).resolve_left hin
      obtain ⟨meter, hm⟩ := Option.isSome_iff_exists.mp hlive
      have hv0 := CustomMeter.valueRecorder_new h m name tags w meter hne hf hm
      have hv := (rfl : (Meter.custom m).valueRecorder h name tags w = _)
      conv at hv =>
        rhs
        simp only [Meter.valueRecorder, hv0, Option.map_some']
      refine ⟨_, _, _, hv, ?_, ?_, ?_, fun hc => absurd hc hin, rfl⟩
      · refine ⟨?_, hkeep⟩
        simp only
        rw [hkeep, hm]
        rfl
      · rw [if_neg hin]
        simp [Meter.names]
      · rw [Meter.find_custom]
        simp only
        rw [find_if_append_none _ _ _ hf]
        simp [find_if]

theorem Meter.find_step (M M1 : Meter) (name : String)
    (hn : M1.names = (if name ∈ M.names then M.names else M.names ++ [name]))
    (n : String) (j : Nat) (hf : M.find n = some j) : M1.find n = some j := by
  unfold Meter.find at hf ⊢
  rw [hn]
  split
  · exact hf
  · exact find_if_append_some _ _ _ _ hf

theorem first_requests_tagged_head (present : List String) (c : String × List tag)
    (cs : List (String × List tag)) (hok : first_requests_tagged present (c :: cs) = true) :
    c.1 ∈ present ∨ c.2 ≠ [] := by
  by_cases hin : c.1 ∈ present
  · exact Or.inl hin
  · right
    simp only [first_requests_tagged, if_neg hin, Bool.and_eq_true, Bool.not_eq_true',
      List.isEmpty_eq_false] at hok
    exact hok.1

theorem first_requests_tagged_tail (present : List String) (c : String × List tag)
    (cs : List (String × List tag)) (hok : first_requests_tagged present (c :: cs) = true) :
    first_requests_tagged (if c.1 ∈ present then present else present ++ [c.1]) cs = true := by
  by_cases hin : c.1 ∈ present
  · simpa only [first_requests_tagged, if_pos hin] using hok
  · simp only [first_requests_tagged, if_neg hin, Bool.and_eq_true] at hok
    rw [if_neg hin]
    exact hok.2

/-! ## A sequence of `valueRecorder` calls -/

/-- A sequence of calls on a ready meter returns one reference per call; the
meter afterwards holds every requested name under the reference returned for
it, keeps the references it had, and has grown by the new names. -/
theorem Meter.valueRecorders_run {σ : Type} (h : Host σ) (calls : List (String × List tag))
    (M : Meter) (w : World σ) (hr : M.ready h w) (hok : M.serves calls) :
    ∃ M1 refs w1, Meter.valueRecorders h calls M w = some (M1, refs, w1) ∧ M1.ready h w1 ∧
      refs.length = calls.length ∧
      (∀ n j, M.find n = some j → M1.find n = some j) ∧
      (∀ (i : Nat) (c : String × List tag) (r : Nat),
        calls[i]? = some c → refs[i]? = some r → M1.find c.1 = some r) ∧
      M1.size = M.size + created M.names (calls.map (·.1)) := by
  induction calls generalizing M w with
  | nil =>
    exact ⟨M, [], w, rfl, hr, rfl, fun _ _ hf => hf, by simp, by simp [created]⟩
  | cons c cs ih =>
    obtain ⟨M1, ref, w1, hv, hr1, hn1, hf1, _, hext⟩ := Meter.valueRecorder_step h M c.1 c.2 w hr
      (fun he => first_requests_tagged_head _ c cs (hok he))
    have hok1 : M1.serves cs := by
      intro he
      rw [hn1]
      exact first_requests_tagged_tail _ c cs (hok (hext ▸ he))
    obtain ⟨M2, refs, w2, hrun, hr2, hlen, hstab, hrefs, hsize⟩ := ih M1 w1 hr1 hok1
    refine ⟨M2, ref :: refs, w2, ?_, hr2, by simp [hlen], ?_, ?_, ?_⟩
    · simp only [Meter.valueRecorders, hv, hrun]
    · intro n j hf
      exact hstab n j (Meter.find_step M M1 c.1 hn1 n j hf)
    · intro i c2 r hc hrr
      cases i with
      | zero =>
        simp only [List.getElem?_cons_zero, Option.some.injEq] at hc hrr
        subst hc hrr
        exact hstab _ _ hf1
      | succ k =>
        simp only [List.getElem?_cons_succ] at hc hrr
        exact hrefs k c2 r hc hrr
    · rw [hsize, Meter.size_eq M1, Meter.size_eq M, hn1]
      simp only [List.map_cons, created]
      split
      · rfl
      · simp only [List.length_append, List.length_singleton]
        omega

/-- On an external meter whose handle the host keeps, a sequence of calls adds
to the record of foreign calls one create-recorder call per new name, all
through the callback of the handle and on the handle. -/
theorem CustomMeter.valueRecorders_calls {σ : Type} (h : Host σ)
    (calls : List (String × List tag)) (m : CustomMeter) (w : World σ)
    (meter : lcbmetrics_METER) (hm : w.foreign.meters.lookup m.meter_ = some meter)
    (hk : h.keeps_meter m.meter_)
    (hok : first_requests_tagged (m.valueRecorders_.map (·.1)) calls = true) :
    ∃ m1 refs w1 d, Meter.valueRecorders h calls (.custom m) w = some (.custom m1, refs, w1) ∧
      m1.meter_ = m.meter_ ∧ w1.calls = w.calls ++ d ∧
      d.length = created (m.valueRecorders_.map (·.1)) (calls.map (·.1)) ∧
      ∀ c ∈ d, ∃ name tags n, c = Call.new_recorder meter.new_recorder m.meter_ name tags n := by
  induction calls generalizing m w with
  | nil => exact ⟨m, [], w, [], rfl, rfl, by simp, by simp [created], by simp⟩
  | cons c cs ih =>
    cases hf : find_if (fun e => e.1 == c.1) m.valueRecorders_ with
    | some i =>
      have hin : c.1 ∈ m.valueRecorders_.map (·.1) := by
        have := (Meter.find_none_iff (.custom m) c.1).not.mp (by
          rw [Meter.find_custom, hf]; exact Option.noConfusion)
        simpa [Meter.names] using this
      have hok1 := first_requests_tagged_tail _ c cs hok
      rw [if_pos hin] at hok1
      obtain ⟨m1, refs, w1, d, hrun, hp, hc, hlen, hall⟩ := ih m w hm hk hok1
      refine ⟨m1, i :: refs, w1, d, ?_, hp, hc, ?_, hall⟩
      · simp only [Meter.valueRecorders, Meter.valueRecorder,
          CustomMeter.valueRecorder_found h m c.1 c.2 w i hf, Option.map_some', hrun]
      · simp only [List.map_cons, created, if_pos hin, hlen]
    | none =>
      have hin : c.1 ∉ m.valueRecorders_.map (·.1) := by
        have := (Meter.find_none_iff (.custom m) c.1).mp (by rw [Meter.find_custom, hf])
        simpa [Meter.names] using this
      have hne : c.2 ≠ [] := (first_requests_tagged_head _ c cs hok).resolve_left hin
      have hok1 := first_requests_tagged_tail _ c cs hok
      rw [if_neg hin] at hok1
      have hv := CustomMeter.valueRecorder_new h m c.1 c.2 w meter hne hf hm
      generalize hmade : h.new_recorder meter.new_recorder m.meter_ c.1
        (front_ptr (c.2.map fun t => ⟨t.key, t.value⟩)) c.2.length w.foreign = made at hv
      have hm1 : made.2.meters.lookup m.meter_ = some meter := by
        rw [← hmade, hk, hm]
      obtain ⟨m1, refs, w1, d, hrun, hp, hc, hlen, hall⟩ :=
        ih ⟨m.meter_, m.valueRecorders_ ++ [(c.1, ⟨made.1⟩)]⟩
          ⟨made.2, w.calls ++ [Call.new_recorder meter.new_recorder m.meter_ c.1
            (front_ptr (c.2.map fun t => ⟨t.key, t.value⟩)) c.2.length]⟩ hm1 hk
          (by simpa using hok1)
      refine ⟨m1, m.valueRecorders_.length :: refs, w1,
        Call.new_recorder meter.new_recorder m.meter_ c.1
          (front_ptr (c.2.map fun t => ⟨t.key, t.value⟩)) c.2.length :: d, ?_, hp, ?_, ?_, ?_⟩
      · simp only [Meter.valueRecorders, Meter.valueRecorder, hv, Option.map_some', hrun]
      · rw [hc]
        simp
      · simp only [List.map_cons, created, if_neg hin, List.length_cons, hlen, List.map_append,
          List.map_nil]
      · intro x hx
        rcases List.mem_cons.mp hx with rfl | hx
        · exact ⟨_, _, _, rfl⟩
        · exact hall x hx

/-! ## The claims on lookup-or-create -/

/-- C1: on every meter, aggregating or external (with its handle allocated
and kept by the host, and asked for a name it does not hold only with at least
one tag, since `callback_tags.front()` needs an element), every finite sequence
of `valueRecorder` calls returns one reference per call, two calls with the
same name return the same recorder, a further call with a name requested
before, whatever its tags, returns that same recorder and changes neither the
meter nor the world, and the meter has grown by exactly the distinct requested
names it did not hold yet. -/
theorem C1_same_name_same_recorder {σ : Type} (h : Host σ) (M : Meter) (w : World σ)
    (calls : List (String × List tag)) (hr : M.ready h w) (hok : M.serves calls) :
    ∃ M1 refs w1, Meter.valueRecorders h calls M w = some (M1, refs, w1) ∧
      refs.length = calls.length ∧
      (∀ (i j : Nat) (ci cj : String × List tag) (ri rj : Nat),
        calls[i]? = some ci → calls[j]? = some cj → refs[i]? = some ri → refs[j]? = some rj →
        ci.1 = cj.1 → ri = rj) ∧
      (∀ (i : Nat) (ci : String × List tag) (ri : Nat) (tags : List tag),
        calls[i]? = some ci → refs[i]? = some ri →
        M1.valueRecorder h ci.1 tags w1 = some (M1, ri, w1)) ∧
      M1.size = M.size + ((calls.map (·.1)).toFinset \ M.names.toFinset).card := by
  obtain ⟨M1, refs, w1, hrun, hr1, hlen, _, hrefs, hsize⟩ :=
    Meter.valueRecorders_run h calls M w hr hok
  refine ⟨M1, refs, w1, hrun, hlen, ?_, ?_, ?_⟩
  · intro i j ci cj ri rj hci hcj hri hrj hname
    have h1 := hrefs i ci ri hci hri
    have h2 := hrefs j cj rj hcj hrj
    rw [hname, h2] at h1
    exact (Option.some.inj h1).symm
  · intro i ci ri tags hci hri
    have hfind := hrefs i ci ri hci hri
    have hin : ci.1 ∈ M1.names := by
      by_contra hc
      rw [(Meter.find_none_iff M1 ci.1).mpr hc] at hfind
      exact Option.noConfusion hfind
    obtain ⟨M2, ref, w2, hv, _, _, hf2, hsame, _⟩ :=
      Meter.valueRecorder_step h M1 ci.1 tags w1 hr1 (fun _ => Or.inl hin)
    obtain ⟨hM, hw⟩ := hsame hin
    subst hM hw
    rw [hfind] at hf2
    rw [hv, Option.some.inj hf2]
  · rw [hsize, created_eq_card]

/-- C1, at an external meter and a sequence that asks for `get` twice, the
second time without tags. -/
theorem C1_same_name_same_recorder_witness :
    ((Meter.custom (CustomMeter.create 1)).ready sample_host sample_world ∧
      (Meter.custom (CustomMeter.create 1)).serves
        [("get", [⟨"a", "b"⟩]), ("set", [⟨"c", "d"⟩]), ("get", [])]) ∧
    ∃ M1 refs w1, Meter.valueRecorders sample_host
        [("get", [⟨"a", "b"⟩]), ("set", [⟨"c", "d"⟩]), ("get", [])]
        (Meter.custom (CustomMeter.create 1)) sample_world = some (M1, refs, w1) ∧
      refs.length =
        [("get", [(⟨"a", "b"⟩ : tag)]), ("set", [⟨"c", "d"⟩]), ("get", [])].length ∧
      (∀ (i j : Nat) (ci cj : String × List tag) (ri rj : Nat),
        [("get", [(⟨"a", "b"⟩ : tag)]), ("set", [⟨"c", "d"⟩]), ("get", [])][i]? = some ci →
        [("get", [(⟨"a", "b"⟩ : tag)]), ("set", [⟨"c", "d"⟩]), ("get", [])][j]? = some cj →
        refs[i]? = some ri → refs[j]? = some rj → ci.1 = cj.1 → ri = rj) ∧
      (∀ (i : Nat) (ci : String × List tag) (ri : Nat) (tags : List tag),
        [("get", [(⟨"a", "b"⟩ : tag)]), ("set", [⟨"c", "d"⟩]), ("get", [])][i]? = some ci →
        refs[i]? = some ri →
        M1.valueRecorder sample_host ci.1 tags w1 = some (M1, ri, w1)) ∧
      M1.size = (Meter.custom (CustomMeter.create 1)).size +
        (([("get", [(⟨"a", "b"⟩ : tag)]), ("set", [⟨"c", "d"⟩]), ("get", [])].map
            (·.1)).toFinset \
          (Meter.custom (CustomMeter.create 1)).names.toFinset).card :=
  have hr : (Meter.custom (CustomMeter.create 1)).ready sample_host sample_world :=
    ⟨rfl, fun _ _ _ _ _ _ => rfl⟩
  have hok : (Meter.custom (CustomMeter.create 1)).serves
      [("get", [⟨"a", "b"⟩]), ("set", [⟨"c", "d"⟩]), ("get", [])] := fun _ => by decide
  ⟨⟨hr, hok⟩, C1_same_name_same_recorder sample_host _ sample_world _ hr hok⟩

/-- C2: on an aggregating meter, after `valueRecorder(name, t1)` a call
`valueRecorder(name, t2)` returns the recorder the first call returned and
leaves the meter as it was, so the number of recorders does not change; that
recorder is named `name`, and its tags are `t1` when the first call created it,
that is when the meter held no recorder of that name before. -/
theorem C2_lookup_ignores_tags (m : AggregatingMeter) (name : String) (t1 t2 : List tag) :
    ((m.valueRecorder name t1).1.valueRecorder name t2).2 = (m.valueRecorder name t1).2 ∧
    ((m.valueRecorder name t1).1.valueRecorder name t2).1 = (m.valueRecorder name t1).1 ∧
    ((m.valueRecorder name t1).1.valueRecorder name t2).1.valueRecorders_.length =
      (m.valueRecorder name t1).1.valueRecorders_.length ∧
    ∃ r, ((m.valueRecorder name t1).1.valueRecorder name t2).1.valueRecorders_[
        ((m.valueRecorder name t1).1.valueRecorder name t2).2]? = some r ∧
      r.name = name ∧
      ((∀ x ∈ m.valueRecorders_, x.name ≠ name) → r.tags = t1) := by
  cases hf : find_if (fun r => name == r.name) m.valueRecorders_ with
  | some i =>
    have h1 : m.valueRecorder name t1 = (m, i) := by
      simp only [AggregatingMeter.valueRecorder, hf]
    have h2 : m.valueRecorder name t2 = (m, i) := by
      simp only [AggregatingMeter.valueRecorder, hf]
    rw [h1]
    simp only [h2, true_and]
    obtain ⟨x, hx, hp⟩ := find_if_get _ _ _ hf
    have hname : x.name = name := (beq_iff_eq.mp hp).symm
    exact ⟨x, hx, hname, fun hall => absurd hname (hall x (List.getElem?_mem hx))⟩
  | none =>
    have h1 : m.valueRecorder name t1 =
        ({ m with valueRecorders_ := m.valueRecorders_ ++
          [AggregatingValueRecorder.create name t1] }, m.valueRecorders_.length) := by
      simp only [AggregatingMeter.valueRecorder, hf]
    have hf2 : find_if (fun r => name == r.name)
        (m.valueRecorders_ ++ [AggregatingValueRecorder.create name t1]) =
        some m.valueRecorders_.length := by
      rw [find_if_append_none _ _ _ hf]
      simp [find_if, AggregatingValueRecorder.create, AggregatingValueRecorder.name]
    have h2 : AggregatingMeter.valueRecorder
        { m with valueRecorders_ := m.valueRecorders_ ++
          [AggregatingValueRecorder.create name t1] } name t2 =
        ({ m with valueRecorders_ := m.valueRecorders_ ++
          [AggregatingValueRecorder.create name t1] }, m.valueRecorders_.length) := by
      simp only [AggregatingMeter.valueRecorder, hf2]
    rw [h1]
    simp only [h2, true_and]
    refine ⟨AggregatingValueRecorder.create name t1, by simp, rfl, fun _ => rfl⟩

/-- C2, at a new meter: `get` is asked for with one tag, then with none. -/
theorem C2_lookup_ignores_tags_witness :
    (∀ x ∈ (AggregatingMeter.create ⟨true, 10⟩ 0).valueRecorders_, x.name ≠ "get") ∧
    ∃ r, (((AggregatingMeter.create ⟨true, 10⟩ 0).valueRecorder "get"
        [⟨"db.couchbase.service", "kv"⟩]).1.valueRecorder "get" []).1.valueRecorders_[
        (((AggregatingMeter.create ⟨true, 10⟩ 0).valueRecorder "get"
          [⟨"db.couchbase.service", "kv"⟩]).1.valueRecorder "get" []).2]? = some r ∧
      r.name = "get" ∧ r.tags = [⟨"db.couchbase.service", "kv"⟩] :=
  have hn : ∀ x ∈ (AggregatingMeter.create ⟨true, 10⟩ 0).valueRecorders_, x.name ≠ "get" :=
    fun _ hx => absurd hx (List.not_mem_nil _)
  ⟨hn, (C2_lookup_ignores_tags (AggregatingMeter.create ⟨true, 10⟩ 0) "get"
    [⟨"db.couchbase.service", "kv"⟩] []).2.2.2.imp fun _ hr => ⟨hr.1, hr.2.1, hr.2.2 hn⟩⟩

/-! ## The claims on the foreign callbacks -/

/-- C3: on an external meter whose handle carries the create-recorder callback
`C` (and is kept by the host), a sequence of `valueRecorder` calls in which
every first request of a name comes with at least one tag adds to the record of
foreign calls only invocations of `C` on that handle, one per new name: as many
as the distinct requested names the meter did not hold, which on a new meter is
the number of distinct names requested. Later requests of a name, with any
tags, add none. -/
theorem C3_one_create_per_name {σ : Type} (h : Host σ) (m : CustomMeter) (w : World σ)
    (calls : List (String × List tag)) (cookie C : Nat)
    (hm : w.foreign.meters.lookup m.meter_ = some ⟨cookie, C⟩) (hk : h.keeps_meter m.meter_)
    (hok : first_requests_tagged (m.valueRecorders_.map (·.1)) calls = true) :
    ∃ M1 refs w1 d, Meter.valueRecorders h calls (.custom m) w = some (M1, refs, w1) ∧
      w1.calls = w.calls ++ d ∧
      (∀ c ∈ d, ∃ name tags n, c = Call.new_recorder C m.meter_ name tags n) ∧
      d.length = ((calls.map (·.1)).toFinset \ (m.valueRecorders_.map (·.1)).toFinset).card ∧
      (m.valueRecorders_ = [] → d.length = (calls.map (·.1)).dedup.length) := by
  obtain ⟨m1, refs, w1, d, hrun, _, hc, hlen, hall⟩ :=
    CustomMeter.valueRecorders_calls h calls m w ⟨cookie, C⟩ hm hk hok
  refine ⟨.custom m1, refs, w1, d, hrun, hc, hall, ?_, ?_⟩
  · rw [hlen, created_eq_card]
  · intro he
    rw [hlen, he, List.map_nil, created_nil]

/-- C3, at a new external meter: `get` is asked for three times, with
different tags and once with none, and `set` once. -/
theorem C3_one_create_per_name_witness :
    (sample_world.foreign.meters.lookup (CustomMeter.create 1).meter_ = some ⟨0, 5⟩ ∧
      sample_host.keeps_meter (CustomMeter.create 1).meter_ ∧
      first_requests_tagged ((CustomMeter.create 1).valueRecorders_.map (·.1))
        [("get", [⟨"a", "b"⟩]), ("get", []), ("set", [⟨"e", "f"⟩]), ("get", [⟨"c", "d"⟩])] =
        true) ∧
    ∃ M1 refs w1 d, Meter.valueRecorders sample_host
        [("get", [⟨"a", "b"⟩]), ("get", []), ("set", [⟨"e", "f"⟩]), ("get", [⟨"c", "d"⟩])]
        (.custom (CustomMeter.create 1)) sample_world = some (M1, refs, w1) ∧
      w1.calls = sample_world.calls ++ d ∧
      (∀ c ∈ d, ∃ name tags n, c = Call.new_recorder 5 (CustomMeter.create 1).meter_ name tags n) ∧
      d.length = (([("get", [(⟨"a", "b"⟩ : tag)]), ("get", []), ("set", [⟨"e", "f"⟩]),
          ("get", [⟨"c", "d"⟩])].map (·.1)).toFinset \
        ((CustomMeter.create 1).valueRecorders_.map (·.1)).toFinset).card ∧
      ((CustomMeter.create 1).valueRecorders_ = [] →
        d.length = ([("get", [(⟨"a", "b"⟩ : tag)]), ("get", []), ("set", [⟨"e", "f"⟩]),
          ("get", [⟨"c", "d"⟩])].map (·.1)).dedup.length) :=
  ⟨⟨rfl, fun _ _ _ _ _ _ => rfl, by decide⟩,
    C3_one_create_per_name sample_host (CustomMeter.create 1) sample_world _ 0 5 rfl
      (fun _ _ _ _ _ _ => rfl) (by decide)⟩

theorem CustomValueRecorder.recordValue_live {σ : Type} (h : Host σ)
    (r : CustomValueRecorder) (v : Nat) (w : World σ) (recorder : lcbmetrics_RECORDER)
    (hl : w.foreign.recorders.lookup r.recorder_ = some recorder) :
    r.recordValue h v w = some
      { foreign := h.record_value recorder.record_value r.recorder_ v w.foreign,
        calls := w.calls ++ [Call.record_value recorder.record_value r.recorder_ v] } := by
  simp only [CustomValueRecorder.recordValue, hl]

theorem Meter.recordValue_custom {σ : Type} (h : Host σ) (m : CustomMeter) (ref : Nat)
    (name : String) (handle : Nat) (v : Nat) (w : World σ) (recorder : lcbmetrics_RECORDER)
    (hget : m.valueRecorders_[ref]? = some (name, ⟨handle⟩))
    (hl : w.foreign.recorders.lookup handle = some recorder) :
    (Meter.custom m).recordValue h ref v w = some (.custom m,
      { foreign := h.record_value recorder.record_value handle v w.foreign,
        calls := w.calls ++ [Call.record_value recorder.record_value handle v] }) := by
  have h3 := CustomValueRecorder.recordValue_live h ⟨handle⟩ v w recorder hl
  simp only [Meter.recordValue, hget, h3, Option.map_some']

/-- C4: `recordValue(v)` on an external recorder whose foreign handle is
allocated returns, and adds to the record of foreign calls exactly one call:
the `record_value` callback of that handle, with the address of that handle as
first argument and `v` as second. -/
theorem C4_recordValue_forwards {σ : Type} (h : Host σ) (r : CustomValueRecorder) (v : Nat)
    (w : World σ) (recorder : lcbmetrics_RECORDER)
    (hl : w.foreign.recorders.lookup r.recorder_ = some recorder) :
    ∃ w1, r.recordValue h v w = some w1 ∧
      w1.calls = w.calls ++ [Call.record_value recorder.record_value r.recorder_ v] ∧
      w1.foreign = h.record_value recorder.record_value r.recorder_ v w.foreign := by
  exact ⟨_, CustomValueRecorder.recordValue_live h r v w recorder hl, rfl, rfl⟩

/-- C4, at the value `120`. -/
theorem C4_recordValue_forwards_witness :
    List.lookup (CustomValueRecorder.mk 100).recorder_
      (World.mk (Foreign.mk 0 [] [(100, ⟨3, 7⟩)]) []).foreign.recorders = some ⟨3, 7⟩ ∧
    ∃ w1, (CustomValueRecorder.mk 100).recordValue sample_host 120
        (World.mk (Foreign.mk 0 [] [(100, ⟨3, 7⟩)]) []) = some w1 ∧
      w1.calls = (World.mk (Foreign.mk 0 [] [(100, ⟨3, 7⟩)]) []).calls ++
        [Call.record_value (lcbmetrics_RECORDER.mk 3 7).record_value
          (CustomValueRecorder.mk 100).recorder_ 120] ∧
      w1.foreign = sample_host.record_value (lcbmetrics_RECORDER.mk 3 7).record_value
        (CustomValueRecorder.mk 100).recorder_ 120
        (World.mk (Foreign.mk 0 [] [(100, ⟨3, 7⟩)]) []).foreign :=
  ⟨rfl, C4_recordValue_forwards sample_host ⟨100⟩ 120 ⟨⟨0, [], [(100, ⟨3, 7⟩)]⟩, []⟩ ⟨3, 7⟩ rfl⟩

/-- C5: when an external meter (handle allocated) is asked, with at least
one tag, for a name it does not hold, it makes exactly one foreign call, to the
create-recorder callback of its handle, with the address of its handle, the
name, the tag count `tags.size()` and a tag array of that length that holds at
each position the key and value of the tag at that position; the address the
callback returns is stored under the name, at the reference returned, and a
later `recordValue` through that reference calls the record-value callback of
the handle at that address with that address. Without a tag nothing is
returned: `callback_tags.front()` has no element then. -/
theorem C5_create_recorder_arguments {σ : Type} (h : Host σ) (m : CustomMeter) (name : String)
    (tags : List tag) (w : World σ) (meter : lcbmetrics_METER)
    (hnew : ∀ e ∈ m.valueRecorders_, e.1 ≠ name)
    (hm : w.foreign.meters.lookup m.meter_ = some meter) (hne : tags ≠ []) :
    m.valueRecorder h name [] w = none ∧
    ∃ m1 ref w1 arr handle, m.valueRecorder h name tags w = some (m1, ref, w1) ∧
      w1.calls = w.calls ++ [Call.new_recorder meter.new_recorder m.meter_ name arr tags.length] ∧
      (∃ a, arr = some a ∧ a.length = tags.length) ∧
      (∀ (i : Nat) (t : tag), tags[i]? = some t →
        ∃ a, arr = some a ∧ a[i]? = some ⟨t.key, t.value⟩) ∧
      handle = (h.new_recorder meter.new_recorder m.meter_ name arr tags.length w.foreign).1 ∧
      w1.foreign = (h.new_recorder meter.new_recorder m.meter_ name arr tags.length w.foreign).2 ∧
      m1.valueRecorders_[ref]? = some (name, ⟨handle⟩) ∧
      find_if (fun e => e.1 == name) m1.valueRecorders_ = some ref ∧
      (∀ (v : Nat) (w2 : World σ) (recorder : lcbmetrics_RECORDER),
        w2.foreign.recorders.lookup handle = some recorder →
        ∃ w3, (Meter.custom m1).recordValue h ref v w2 = some (.custom m1, w3) ∧
          w3.calls = w2.calls ++ [Call.record_value recorder.record_value handle v]) := by
  have hf : find_if (fun e => e.1 == name) m.valueRecorders_ = none := by
    rw [find_if_none_iff]
    intro e he
    simpa using hnew e he
  have hfp := front_ptr_map (fun t : tag => lcbmetrics_TAG.mk t.key t.value) tags hne
  have hv := CustomMeter.valueRecorder_new h m name tags w meter hne hf hm
  have hget : (m.valueRecorders_ ++ [(name, CustomValueRecorder.mk (h.new_recorder
      meter.new_recorder m.meter_ name (front_ptr (tags.map fun t => ⟨t.key, t.value⟩))
      tags.length w.foreign).1)])[m.valueRecorders_.length]? = some (name, ⟨(h.new_recorder
      meter.new_recorder m.meter_ name (front_ptr (tags.map fun t => ⟨t.key, t.value⟩))
      tags.length w.foreign).1⟩) := by
    simp
  refine ⟨CustomMeter.valueRecorder_untagged h m name w hf,
    _, _, _, front_ptr (tags.map fun t => ⟨t.key, t.value⟩), _, hv, rfl, ?_, ?_, rfl, rfl,
    hget, ?_, ?_⟩
  · exact ⟨_, hfp, List.length_map _ _⟩
  · intro i t ht
    exact ⟨_, hfp, by simp [ht]⟩
  · rw [find_if_append_none _ _ _ hf]
    simp [find_if]
  · intro v w2 recorder hl
    exact ⟨_, Meter.recordValue_custom h _ _ name _ v w2 recorder hget hl, rfl⟩

/-- C5, at a new external meter asked for `get` with the two tags of a
key-value operation. -/
theorem C5_create_recorder_arguments_witness :
    ((∀ e ∈ (CustomMeter.create 1).valueRecorders_, e.1 ≠ "get") ∧
      sample_world.foreign.meters.lookup (CustomMeter.create 1).meter_ = some ⟨0, 5⟩ ∧
      [(⟨"db.couchbase.service", "kv"⟩ : tag), ⟨"db.operation", "get"⟩] ≠ []) ∧
    (CustomMeter.create 1).valueRecorder sample_host "get" [] sample_world = none ∧
    ∃ m1 ref w1 arr handle, (CustomMeter.create 1).valueRecorder sample_host "get"
        [⟨"db.couchbase.service", "kv"⟩, ⟨"db.operation", "get"⟩] sample_world =
        some (m1, ref, w1) ∧
      w1.calls = sample_world.calls ++ [Call.new_recorder (lcbmetrics_METER.mk 0 5).new_recorder
        (CustomMeter.create 1).meter_ "get" arr
        [(⟨"db.couchbase.service", "kv"⟩ : tag), ⟨"db.operation", "get"⟩].length] ∧
      (∃ a, arr = some a ∧
        a.length = [(⟨"db.couchbase.service", "kv"⟩ : tag), ⟨"db.operation", "get"⟩].length) ∧
      (∀ (i : Nat) (t : tag),
        [(⟨"db.couchbase.service", "kv"⟩ : tag), ⟨"db.operation", "get"⟩][i]? = some t →
        ∃ a, arr = some a ∧ a[i]? = some ⟨t.key, t.value⟩) ∧
      handle = (sample_host.new_recorder (lcbmetrics_METER.mk 0 5).new_recorder
        (CustomMeter.create 1).meter_ "get" arr
        [(⟨"db.couchbase.service", "kv"⟩ : tag), ⟨"db.operation", "get"⟩].length
        sample_world.foreign).1 ∧
      w1.foreign = (sample_host.new_recorder (lcbmetrics_METER.mk 0 5).new_recorder
        (CustomMeter.create 1).meter_ "get" arr
        [(⟨"db.couchbase.service", "kv"⟩ : tag), ⟨"db.operation", "get"⟩].length
        sample_world.foreign).2 ∧
      m1.valueRecorders_[ref]? = some ("get", ⟨handle⟩) ∧
      find_if (fun e => e.1 == "get") m1.valueRecorders_ = some ref ∧
      (∀ (v : Nat) (w2 : World Nat) (recorder : lcbmetrics_RECORDER),
        w2.foreign.recorders.lookup handle = some recorder →
        ∃ w3, (Meter.custom m1).recordValue sample_host ref v w2 = some (.custom m1, w3) ∧
          w3.calls = w2.calls ++ [Call.record_value recorder.record_value handle v]) :=
  have hnew : ∀ e ∈ (CustomMeter.create 1).valueRecorders_, e.1 ≠ "get" :=
    fun _ he => absurd he (List.not_mem_nil _)
  ⟨⟨hnew, rfl, List.cons_ne_nil _ _⟩,
    C5_create_recorder_arguments sample_host (CustomMeter.create 1) "get"
      [⟨"db.couchbase.service", "kv"⟩, ⟨"db.operation", "get"⟩] sample_world ⟨0, 5⟩ hnew rfl
      (List.cons_ne_nil _ _)⟩

/-! ## The latency unit -/

/-- C6: with an external meter, a request started at `0` and completed at clock
reading `5000` (nanoseconds), `record_kv_op_latency` and
`record_http_op_latency` both hand `5000` to the record-value callback: the
clock difference as it is, not `5000 / 1000 = 5`. -/
theorem C6_latency_is_raw_clock_difference :
    (record_kv_op_latency sample_host (some "get")
        ⟨⟨true, 10⟩, some (.custom (CustomMeter.create 1))⟩ 0 5000 sample_world).map
        (fun r => r.2.calls.getLast?) = some (some (Call.record_value 7 100 5000)) ∧
    (record_http_op_latency sample_host (some "select") (some "query")
        ⟨⟨true, 10⟩, some (.custom (CustomMeter.create 1))⟩ 0 5000 sample_world).map
        (fun r => r.2.calls.getLast?) = some (some (Call.record_value 7 100 5000)) ∧
    hrtime_diff 5000 0 = 5000 ∧ (5000 - 0) / 1000 = 5 := by
  refine ⟨?_, ?_, ?_, ?_⟩ <;> decide

/-! ## The flush cycle -/

theorem AggregatingMeter.flush_loop_length (print : lcb_HISTOGRAM → String)
    (pipe_ok : Nat → Bool) (i : Nat) (rs : List AggregatingValueRecorder) :
    (AggregatingMeter.flush_loop print pipe_ok i rs).1.length = rs.length := by
  induction rs generalizing i with
  | nil => rfl
  | cons r rs ih =>
    simp only [AggregatingMeter.flush_loop]
    split <;> simp [ih]

theorem AggregatingMeter.flush_loop_get (print : lcb_HISTOGRAM → String)
    (pipe_ok : Nat → Bool) (i : Nat) (rs : List AggregatingValueRecorder) (k : Nat)
    (r : AggregatingValueRecorder) (hk : rs[k]? = some r) :
    (AggregatingMeter.flush_loop print pipe_ok i rs).1[k]? =
      some (if pipe_ok (i + k) then (r.flush print "").1 else r) := by
  induction rs generalizing i k with
  | nil => simp at hk
  | cons x xs ih =>
    cases k with
    | zero =>
      simp only [List.getElem?_cons_zero, Option.some.injEq] at hk
      subst hk
      simp only [AggregatingMeter.flush_loop, Nat.add_zero]
      split <;> simp
    | succ j =>
      simp only [List.getElem?_cons_succ] at hk
      have := ih (i + 1) j hk
      simp only [AggregatingMeter.flush_loop]
      split <;> simpa [Nat.add_assoc, Nat.add_comm 1 j] using this

theorem AggregatingMeter.flush_loop_reports (print : lcb_HISTOGRAM → String)
    (pipe_ok : Nat → Bool) (i : Nat) (rs : List AggregatingValueRecorder) :
    reports (AggregatingMeter.flush_loop print pipe_ok i rs).2 =
      (rs.enumFrom i).filterMap
        (fun kr => if pipe_ok kr.1 then some (kr.2.flush print "").2 else none) := by
  induction rs generalizing i with
  | nil => rfl
  | cons r rs ih =>
    simp only [AggregatingMeter.flush_loop, List.enumFrom_cons]
    by_cases hp : pipe_ok i = true
    · simp [hp, reports, ih]
    · simp [hp, ih]

theorem AggregatingMeter.flush_loop_all_ok (print : lcb_HISTOGRAM → String)
    (pipe_ok : Nat → Bool) (i : Nat) (rs : List AggregatingValueRecorder)
    (hok : ∀ k, k < rs.length → pipe_ok (i + k) = true) :
    AggregatingMeter.flush_loop print pipe_ok i rs =
      (rs.map (fun r => (r.flush print "").1),
        rs.map (fun r => Effect.log "op_metrics" (r.flush print "").2)) := by
  induction rs generalizing i with
  | nil => rfl
  | cons r rs ih =>
    have h0 : pipe_ok i = true := by simpa using hok 0 (by simp)
    have hrest : ∀ k, k < rs.length → pipe_ok (i + 1 + k) = true := by
      intro k hk
      have := hok (k + 1) (by simpa using hk)
      rwa [Nat.add_assoc, Nat.add_comm 1 k]
    simp only [AggregatingMeter.flush_loop, h0, if_true, ih (i + 1) hrest, List.map_cons]

theorem reports_map_log (f : AggregatingValueRecorder → String)
    (rs : List AggregatingValueRecorder) :
    reports (rs.map (fun r => Effect.log "op_metrics" (f r))) = rs.map f := by
  induction rs with
  | nil => rfl
  | cons r rs ih => simp [reports, ih]

/-- C7 as stated fails: a meter with one recorder that has recorded one value
emits no report, and the recorder keeps its recording, when the output capture
of the cycle cannot be set up. -/
theorem C7_counterexample :
    (AggregatingMeter.mk ⟨some 10⟩ [⟨"get", [], ⟨[120]⟩⟩]).valueRecorders_.length = 1 ∧
    reports ((AggregatingMeter.mk ⟨some 10⟩ [⟨"get", [], ⟨[120]⟩⟩]).flush
      (fun _ => "") ⟨true, 10⟩ 10 (fun _ => false)).2 = [] ∧
    ((AggregatingMeter.mk ⟨some 10⟩ [⟨"get", [], ⟨[120]⟩⟩]).flush
      (fun _ => "") ⟨true, 10⟩ 10 (fun _ => false)).1.valueRecorders_.map
        (fun r => lcb_histogram_count r.histogram_) = [1] := by
  decide

/-- C7, amended: flushing an aggregating meter without recorders emits no
report; when the output capture is set up for each of its `K` recorders, the
flush emits exactly `K` reports, one per recorder in the meter's order with the
text that recorder writes, and afterwards each of the `K` recorders, name and
tags unchanged, holds a newly created histogram, whose count is `0`. -/
theorem C7_flush_reports_and_resets (print : lcb_HISTOGRAM → String) (settings : lcb_settings)
    (now : Nat) (pipe_ok : Nat → Bool) (m : AggregatingMeter) :
    (m.valueRecorders_ = [] → reports (m.flush print settings now pipe_ok).2 = []) ∧
    ((∀ k, k < m.valueRecorders_.length → pipe_ok k = true) →
      reports (m.flush print settings now pipe_ok).2 =
        m.valueRecorders_.map (fun r => (r.flush print "").2) ∧
      (reports (m.flush print settings now pipe_ok).2).length = m.valueRecorders_.length ∧
      (m.flush print settings now pipe_ok).1.valueRecorders_ =
        m.valueRecorders_.map (fun r => ⟨r.name_, r.tags_, lcb_histogram_create⟩) ∧
      (m.flush print settings now pipe_ok).1.valueRecorders_.length = m.valueRecorders_.length ∧
      ∀ r ∈ (m.flush print settings now pipe_ok).1.valueRecorders_,
        r.histogram_ = lcb_histogram_create ∧ lcb_histogram_count r.histogram_ = 0) := by
  constructor
  · intro he
    simp [AggregatingMeter.flush, he, AggregatingMeter.flush_loop, reports]
  · intro hok
    have hloop := AggregatingMeter.flush_loop_all_ok print pipe_ok 0 m.valueRecorders_
      (fun k hk => by simpa using hok k hk)
    have hrep : reports (m.flush print settings now pipe_ok).2 =
        m.valueRecorders_.map (fun r => (r.flush print "").2) := by
      simp only [AggregatingMeter.flush, hloop, reports]
      exact reports_map_log _ _
    have hrs : (m.flush print settings now pipe_ok).1.valueRecorders_ =
        m.valueRecorders_.map (fun r => ⟨r.name_, r.tags_, lcb_histogram_create⟩) := by
      simp only [AggregatingMeter.flush, hloop, AggregatingValueRecorder.flush]
    refine ⟨hrep, by rw [hrep, List.length_map], hrs, by rw [hrs, List.length_map], ?_⟩
    intro r hr
    rw [hrs, List.mem_map] at hr
    obtain ⟨x, _, rfl⟩ := hr
    exact ⟨rfl, rfl⟩

/-- C7 amended, at a meter with two recorders, each with a recording. -/
theorem C7_flush_reports_and_resets_witness :
    (∀ k, k < (AggregatingMeter.mk ⟨some 10⟩
        [⟨"get", [], ⟨[120]⟩⟩, ⟨"upsert", [], ⟨[7, 9]⟩⟩]).valueRecorders_.length →
      (fun _ => true) k = true) ∧
    (reports ((AggregatingMeter.mk ⟨some 10⟩
        [⟨"get", [], ⟨[120]⟩⟩, ⟨"upsert", [], ⟨[7, 9]⟩⟩]).flush
        (fun _ => "") ⟨true, 10⟩ 10 (fun _ => true)).2).length = 2 ∧
    ∀ r ∈ ((AggregatingMeter.mk ⟨some 10⟩
        [⟨"get", [], ⟨[120]⟩⟩, ⟨"upsert", [], ⟨[7, 9]⟩⟩]).flush
        (fun _ => "") ⟨true, 10⟩ 10 (fun _ => true)).1.valueRecorders_,
      r.histogram_ = lcb_histogram_create ∧ lcb_histogram_count r.histogram_ = 0 :=
  have hok : ∀ k, k < (AggregatingMeter.mk ⟨some 10⟩
      [⟨"get", [], ⟨[120]⟩⟩, ⟨"upsert", [], ⟨[7, 9]⟩⟩]).valueRecorders_.length →
      (fun _ => true) k = true := fun _ _ => rfl
  have hc := (C7_flush_reports_and_resets (fun _ => "") ⟨true, 10⟩ 10 (fun _ => true)
    (AggregatingMeter.mk ⟨some 10⟩ [⟨"get", [], ⟨[120]⟩⟩, ⟨"upsert", [], ⟨[7, 9]⟩⟩])).2 hok
  ⟨hok, hc.2.1, hc.2.2.2.2⟩

/-- C8: in a flush cycle a recorder whose output capture cannot be set up is
left exactly as it was, every recorder whose capture is set up has its
histogram replaced by a new one (name and tags unchanged), and the reports
handed to the log are those of the recorders with a capture, in the meter's
order, and no other; the flush returns for every outcome of the captures. -/
theorem C8_capture_failure_skips_one (print : lcb_HISTOGRAM → String) (settings : lcb_settings)
    (now : Nat) (pipe_ok : Nat → Bool) (m : AggregatingMeter) :
    (m.flush print settings now pipe_ok).1.valueRecorders_.length = m.valueRecorders_.length ∧
    (∀ (k : Nat) (r : AggregatingValueRecorder), m.valueRecorders_[k]? = some r →
      pipe_ok k = false → (m.flush print settings now pipe_ok).1.valueRecorders_[k]? = some r) ∧
    (∀ (k : Nat) (r : AggregatingValueRecorder), m.valueRecorders_[k]? = some r →
      pipe_ok k = true → (m.flush print settings now pipe_ok).1.valueRecorders_[k]? =
        some ⟨r.name_, r.tags_, lcb_histogram_create⟩) ∧
    reports (m.flush print settings now pipe_ok).2 =
      m.valueRecorders_.enum.filterMap
        (fun kr => if pipe_ok kr.1 then some (kr.2.flush print "").2 else none) := by
  refine ⟨?_, ?_, ?_, ?_⟩
  · exact AggregatingMeter.flush_loop_length print pipe_ok 0 m.valueRecorders_
  · intro k r hk hp
    have := AggregatingMeter.flush_loop_get print pipe_ok 0 m.valueRecorders_ k r hk
    simpa [hp] using this
  · intro k r hk hp
    have := AggregatingMeter.flush_loop_get print pipe_ok 0 m.valueRecorders_ k r hk
    simpa [hp, AggregatingValueRecorder.flush] using this
  · simp only [AggregatingMeter.flush, reports]
    exact AggregatingMeter.flush_loop_reports print pipe_ok 0 m.valueRecorders_

/-- C8, at a meter with two recorders where the capture fails for the first:
the first keeps its recording, the second is reset, one report is emitted. -/
theorem C8_capture_failure_skips_one_witness :
    ((AggregatingMeter.mk ⟨some 10⟩ [⟨"get", [], ⟨[120]⟩⟩, ⟨"upsert", [], ⟨[7, 9]⟩⟩]).flush
        (fun _ => "") ⟨true, 10⟩ 10 (fun k => k != 0)).1.valueRecorders_[0]? =
      some ⟨"get", [], ⟨[120]⟩⟩ ∧
    ((AggregatingMeter.mk ⟨some 10⟩ [⟨"get", [], ⟨[120]⟩⟩, ⟨"upsert", [], ⟨[7, 9]⟩⟩]).flush
        (fun _ => "") ⟨true, 10⟩ 10 (fun k => k != 0)).1.valueRecorders_[1]? =
      some ⟨"upsert", [], lcb_histogram_create⟩ ∧
    (reports ((AggregatingMeter.mk ⟨some 10⟩
        [⟨"get", [], ⟨[120]⟩⟩, ⟨"upsert", [], ⟨[7, 9]⟩⟩]).flush
        (fun _ => "") ⟨true, 10⟩ 10 (fun k => k != 0)).2).length = 1 :=
  have hc := C8_capture_failure_skips_one (fun _ => "") ⟨true, 10⟩ 10 (fun k => k != 0)
    (AggregatingMeter.mk ⟨some 10⟩ [⟨"get", [], ⟨[120]⟩⟩, ⟨"upsert", [], ⟨[7, 9]⟩⟩])
  ⟨hc.2.1 0 _ rfl rfl, hc.2.2.1 1 _ rfl rfl, by rw [hc.2.2.2]; rfl⟩

/-! ## The flush timer -/

theorem AggregatingMeter.flush_timer (print : lcb_HISTOGRAM → String) (settings : lcb_settings)
    (now : Nat) (pipe_ok : Nat → Bool) (m : AggregatingMeter) :
    (m.flush print settings now pipe_ok).1.timer_.expiry =
      some (now + settings.op_metrics_flush_interval) := rfl

/-- C9 as stated fails: the timer fires at `T = 10` with the interval setting
`5`; whatever the setting is changed to afterwards (say `3`), the second firing
is the one armed by the first, at `15`, not at `10 + 3`. -/
theorem C9_counterexample :
    (AggregatingMeter.mk ⟨some 10⟩ []).fire (fun _ => "") ⟨true, 5⟩ (fun _ => true) =
      some (10, AggregatingMeter.mk ⟨some 15⟩ []) ∧
    ((AggregatingMeter.mk ⟨some 15⟩ []).fire (fun _ => "") ⟨true, 3⟩ (fun _ => true)).map
      (fun r => r.1) = some 15 ∧
    (15 : Nat) ≠ 10 + 3 := by
  decide

/-- C9, amended: when the flush timer fires at time `T` under the interval
setting `I_old`, the second firing happens at `T + I_old`, also when the
setting is changed to `I_new` in between; the new interval is picked up by the
re-arm of the second firing, which schedules the third at `T + I_old + I_new`. -/
theorem C9_new_interval_from_next_rearm (print : lcb_HISTOGRAM → String)
    (pipe_ok1 pipe_ok2 : Nat → Bool) (enabled1 enabled2 : Bool) (m : AggregatingMeter)
    (T I_old I_new : Nat) (hT : m.timer_.expiry = some T) :
    ∃ m1 m2, m.fire print ⟨enabled1, I_old⟩ pipe_ok1 = some (T, m1) ∧
      m1.fire print ⟨enabled2, I_new⟩ pipe_ok2 = some (T + I_old, m2) ∧
      m2.timer_.expiry = some (T + I_old + I_new) := by
  refine ⟨(m.flush print ⟨enabled1, I_old⟩ T pipe_ok1).1,
    ((m.flush print ⟨enabled1, I_old⟩ T pipe_ok1).1.flush print ⟨enabled2, I_new⟩
      (T + I_old) pipe_ok2).1, ?_, ?_, rfl⟩
  · simp only [AggregatingMeter.fire, hT]
  · simp only [AggregatingMeter.fire, AggregatingMeter.flush_timer]

/-- C9 amended, at `T = 10`, `I_old = 5`, `I_new = 3`. -/
theorem C9_new_interval_from_next_rearm_witness :
    (AggregatingMeter.mk ⟨some 10⟩ []).timer_.expiry = some 10 ∧
    ∃ m1 m2, (AggregatingMeter.mk ⟨some 10⟩ []).fire (fun _ => "") ⟨true, 5⟩ (fun _ => true) =
        some (10, m1) ∧
      m1.fire (fun _ => "") ⟨true, 3⟩ (fun _ => true) = some (10 + 5, m2) ∧
      m2.timer_.expiry = some (10 + 5 + 3) :=
  ⟨rfl, C9_new_interval_from_next_rearm (fun _ => "") (fun _ => true) (fun _ => true) true true
    (AggregatingMeter.mk ⟨some 10⟩ []) 10 5 3 rfl⟩

/-! ## The report header -/

theorem tags_foldl (ts : List tag) (init : String) :
    ts.foldl (fun s t => s ++ " " ++ t.key ++ "=" ++ t.value ++ " ") init =
      init ++ tags_text ts := by
  induction ts generalizing init with
  | nil => simp [tags_text]
  | cons t ts ih =>
    rw [List.foldl_cons, ih]
    simp only [tags_text, String.append_assoc]

/-- C10 as stated fails: two recorders named `get` and `upsert` with the same
tag set write the same report header. -/
theorem C10_counterexample :
    (AggregatingValueRecorder.create "get" [⟨"db.couchbase.service", "kv"⟩]).name ≠
      (AggregatingValueRecorder.create "upsert" [⟨"db.couchbase.service", "kv"⟩]).name ∧
    (AggregatingValueRecorder.create "get" [⟨"db.couchbase.service", "kv"⟩]).header "" =
      (AggregatingValueRecorder.create "upsert" [⟨"db.couchbase.service", "kv"⟩]).header "" := by
  decide

/-- C10, amended: the text written by the flush of an aggregating recorder
starts with the meter name `com.couchbase.client.c`, the same for every
recorder, followed by every tag as ` key=value ` in tag order between braces,
then the histogram print; the recorder's own name is not written: recorders
with equal tag sets write equal headers whatever their names. -/
theorem C10_report_header (print : lcb_HISTOGRAM → String) (r : AggregatingValueRecorder)
    (stream : String) :
    r.header stream = stream ++ "com.couchbase.client.c" ++ ", tags: \x7b" ++ tags_text r.tags ++
      "\x7d\n" ∧
    (r.flush print stream).2 = r.header stream ++ print r.histogram_ ∧
    (∀ (name : String) (hg : lcb_HISTOGRAM),
      (AggregatingValueRecorder.mk name r.tags_ hg).header stream = r.header stream) := by
  refine ⟨?_, rfl, fun _ _ => rfl⟩
  simp only [AggregatingValueRecorder.header, tags_foldl, METER_NAME,
    AggregatingValueRecorder.tags]

/-! ## The cookie accessors -/

theorem lookup_store_handle {α : Type} (p : Nat) (v old : α) (heap : List (Nat × α))
    (hl : heap.lookup p = some old) : (store_handle p v heap).lookup p = some v := by
  induction heap with
  | nil => simp at hl
  | cons e es ih =>
    obtain ⟨k, x⟩ := e
    have hstep : store_handle p v ((k, x) :: es) =
        (if (k == p) = true then (k, v) else (k, x)) :: store_handle p v es := rfl
    rw [hstep]
    by_cases hk : p = k
    · subst hk
      rw [if_pos (beq_self_eq_true p), List.lookup_cons, beq_self_eq_true]
    · have hne : (p == k) = false := by simpa using hk
      have hne2 : ¬ (k == p) = true := by simpa using fun hc : k = p => hk hc.symm
      rw [List.lookup_cons, hne] at hl
      rw [if_neg hne2, List.lookup_cons, hne]
      exact ih hl

/-- C11: a meter handle created with cookie `c` gives `c` back from its cookie
accessor with status `LCB_SUCCESS`, right after creation and after a callback
`cb` has been registered on it, and the accessor returns the heap of handles
as it received it, so the stored cookie and the registered callback are as
before; the same holds for a recorder handle. -/
theorem C11_cookie_round_trip {σ : Type} (addr junk c cb : Nat) (f : Foreign σ) :
    ((lcbmetrics_meter_create addr junk c f).1 = .LCB_SUCCESS ∧
      lcbmetrics_meter_cookie (lcbmetrics_meter_create addr junk c f).2.1
        (lcbmetrics_meter_create addr junk c f).2.2 =
        some (.LCB_SUCCESS, c, (lcbmetrics_meter_create addr junk c f).2.2) ∧
      ∃ f2, lcbmetrics_meter_create_recorder_callback (lcbmetrics_meter_create addr junk c f).2.1
          cb (lcbmetrics_meter_create addr junk c f).2.2 = some (.LCB_SUCCESS, f2) ∧
        f2.meters.lookup (lcbmetrics_meter_create addr junk c f).2.1 = some ⟨c, cb⟩ ∧
        lcbmetrics_meter_cookie (lcbmetrics_meter_create addr junk c f).2.1 f2 =
          some (.LCB_SUCCESS, c, f2)) ∧
    ((lcbmetrics_recorder_create addr junk c f).1 = .LCB_SUCCESS ∧
      lcbmetrics_recorder_cookie (lcbmetrics_recorder_create addr junk c f).2.1
        (lcbmetrics_recorder_create addr junk c f).2.2 =
        some (.LCB_SUCCESS, c, (lcbmetrics_recorder_create addr junk c f).2.2) ∧
      ∃ f2, lcbmetrics_recorder_record_value_callback
          (lcbmetrics_recorder_create addr junk c f).2.1 cb
          (lcbmetrics_recorder_create addr junk c f).2.2 = some (.LCB_SUCCESS, f2) ∧
        f2.recorders.lookup (lcbmetrics_recorder_create addr junk c f).2.1 = some ⟨c, cb⟩ ∧
        lcbmetrics_recorder_cookie (lcbmetrics_recorder_create addr junk c f).2.1 f2 =
          some (.LCB_SUCCESS, c, f2)) := by
  have hm : ((lcbmetrics_meter_create addr junk c f).2.2).meters.lookup addr =
      some ⟨c, junk⟩ := by
    simp [lcbmetrics_meter_create, List.lookup]
  have hr : ((lcbmetrics_recorder_create addr junk c f).2.2).recorders.lookup addr =
      some ⟨c, junk⟩ := by
    simp [lcbmetrics_recorder_create, List.lookup]
  have hm2 := lookup_store_handle addr (lcbmetrics_METER.mk c cb) _ _ hm
  have hr2 := lookup_store_handle addr (lcbmetrics_RECORDER.mk c cb) _ _ hr
  refine ⟨⟨rfl, ?_, ?_⟩, ⟨rfl, ?_, ?_⟩⟩
  · show lcbmetrics_meter_cookie addr _ = _
    simp only [lcbmetrics_meter_cookie, hm]
  · refine ⟨{ (lcbmetrics_meter_create addr junk c f).2.2 with
      meters := store_handle addr ⟨c, cb⟩ (lcbmetrics_meter_create addr junk c f).2.2.meters },
      ?_, hm2, ?_⟩
    · show lcbmetrics_meter_create_recorder_callback addr cb _ = _
      simp only [lcbmetrics_meter_create_recorder_callback, hm]
    · show lcbmetrics_meter_cookie addr _ = _
      simp only [lcbmetrics_meter_cookie, hm2]
  · show lcbmetrics_recorder_cookie addr _ = _
    simp only [lcbmetrics_recorder_cookie, hr]
  · refine ⟨{ (lcbmetrics_recorder_create addr junk c f).2.2 with
      recorders := store_handle addr ⟨c, cb⟩
        (lcbmetrics_recorder_create addr junk c f).2.2.recorders }, ?_, hr2, ?_⟩
    · show lcbmetrics_recorder_record_value_callback addr cb _ = _
      simp only [lcbmetrics_recorder_record_value_callback, hr]
    · show lcbmetrics_recorder_cookie addr _ = _
      simp only [lcbmetrics_recorder_cookie, hr2]

/-! ## The tags of the entry points -/

/-- C16: `create_tags(op, svc)` is empty when `svc` is null, whatever `op` is;
it is the service tag alone when `svc` is not null and `op` is; it is the
service tag followed by the operation tag when neither is null. It never has
more than two tags, and a tag `db.operation` in it has a tag
`db.couchbase.service` before it. -/
theorem C16_create_tags (op svc : Option String) :
    (svc = none → create_tags op svc = []) ∧
    (∀ s, svc = some s → op = none → create_tags op svc = [⟨"db.couchbase.service", s⟩]) ∧
    (∀ s o, svc = some s → op = some o →
      create_tags op svc = [⟨"db.couchbase.service", s⟩, ⟨"db.operation", o⟩]) ∧
    (create_tags op svc).length ≤ 2 ∧
    (∀ (i : Nat) (t : tag), (create_tags op svc)[i]? = some t → t.key = "db.operation" →
      ∃ (j : Nat) (t0 : tag), j < i ∧ (create_tags op svc)[j]? = some t0 ∧
        t0.key = "db.couchbase.service") := by
  refine ⟨?_, ?_, ?_, ?_, ?_⟩
  · rintro rfl
    rfl
  · rintro s rfl rfl
    rfl
  · rintro s o rfl rfl
    rfl
  · cases svc <;> cases op <;> simp [create_tags]
  · intro i t ht hk
    cases svc with
    | none => simp [create_tags] at ht
    | some s =>
      cases op with
      | none =>
        cases i with
        | zero =>
          simp only [create_tags, List.getElem?_cons_zero, Option.some.injEq] at ht
          subst ht
          exact absurd hk (show ¬ "db.couchbase.service" = "db.operation" by decide)
        | succ k => simp [create_tags] at ht
      | some o =>
        cases i with
        | zero =>
          simp only [create_tags, List.getElem?_cons_zero, Option.some.injEq] at ht
          subst ht
          exact absurd hk (show ¬ "db.couchbase.service" = "db.operation" by decide)
        | succ k => exact ⟨0, ⟨"db.couchbase.service", s⟩, Nat.succ_pos k, rfl, rfl⟩

/-- C16, at `op = "get"` and `svc = "kv"`, and at a null `svc`. -/
theorem C16_create_tags_witness :
    create_tags (some "get") (some "kv") =
      [⟨"db.couchbase.service", "kv"⟩, ⟨"db.operation", "get"⟩] ∧
    create_tags (some "get") none = [] :=
  ⟨(C16_create_tags (some "get") (some "kv")).2.2.1 "kv" "get" rfl rfl,
    (C16_create_tags (some "get") none).1 rfl⟩

/-! ## The order of the steps of a flush -/

theorem AggregatingMeter.flush_loop_logs (print : lcb_HISTOGRAM → String)
    (pipe_ok : Nat → Bool) (i : Nat) (rs : List AggregatingValueRecorder) :
    ∀ e ∈ (AggregatingMeter.flush_loop print pipe_ok i rs).2,
      ∃ text, e = Effect.log "op_metrics" text := by
  induction rs generalizing i with
  | nil => simp [AggregatingMeter.flush_loop]
  | cons r rs ih =>
    intro e he
    simp only [AggregatingMeter.flush_loop] at he
    split at he
    · rcases List.mem_cons.mp he with rfl | he2
      · exact ⟨_, rfl⟩
      · exact ih (i + 1) e he2
    · exact ih (i + 1) e he

/-- C13 as stated fails: in the flush of a meter with one recorder the re-arm
of the timer is the first step, before the report of the recorder. -/
theorem C13_counterexample :
    ((AggregatingMeter.mk ⟨some 100⟩ [⟨"get", [], ⟨[120]⟩⟩]).flush
      (fun _ => "") ⟨true, 10⟩ 100 (fun _ => true)).2 =
      [Effect.rearm 10, Effect.log "op_metrics" "com.couchbase.client.c, tags: \x7b\x7d\n"] := by
  decide

/-- C13, amended: within one firing of `AggregatingMeter::flush` the timer is
re-armed once, as the first step: the re-arm comes before every recorder of
the meter is serialized, emitted and reset, and everything after it is a
report of a recorder. -/
theorem C13_rearm_is_first_step (print : lcb_HISTOGRAM → String) (settings : lcb_settings)
    (now : Nat) (pipe_ok : Nat → Bool) (m : AggregatingMeter) :
    ∃ rest, (m.flush print settings now pipe_ok).2 =
        Effect.rearm settings.op_metrics_flush_interval :: rest ∧
      (∀ e ∈ rest, ∃ text, e = Effect.log "op_metrics" text) ∧
      reports rest = reports (m.flush print settings now pipe_ok).2 ∧
      (m.flush print settings now pipe_ok).1.timer_ =
        m.timer_.rearm now settings.op_metrics_flush_interval :=
  ⟨(AggregatingMeter.flush_loop print pipe_ok 0 m.valueRecorders_).2, rfl,
    AggregatingMeter.flush_loop_logs print pipe_ok 0 m.valueRecorders_, rfl, rfl⟩

/-! ## The recording entry points -/

theorem record_op_latency_off {σ : Type} (h : Host σ) (op svc : Option String)
    (inst : lcb_INSTANCE) (start hrtime : Nat) (w : World σ)
    (hoff : inst.settings.op_metrics_enabled = false ∨ inst.op_metrics = none) :
    record_op_latency h op svc inst start hrtime w = some (inst, w) := by
  unfold record_op_latency
  rcases hoff with hd | hn
  · simp [hd]
  · simp [hn]

theorem record_http_op_latency_off {σ : Type} (h : Host σ) (op svc : Option String)
    (inst : lcb_INSTANCE) (start hrtime : Nat) (w : World σ)
    (hoff : inst.settings.op_metrics_enabled = false ∨ inst.op_metrics = none) :
    record_http_op_latency h op svc inst start hrtime w = some (inst, w) := by
  unfold record_http_op_latency
  cases svc with
  | none => rfl
  | some s =>
    rcases hoff with hd | hn
    · simp [hd]
    · simp [hn]

theorem record_op_latency_on {σ : Type} (h : Host σ) (name : String) (svc : Option String)
    (inst : lcb_INSTANCE) (start hrtime : Nat) (w : World σ) (M : Meter)
    (hon : inst.settings.op_metrics_enabled = true) (hM : inst.op_metrics = some M) :
    record_op_latency h (some name) svc inst start hrtime w =
      (M.record h name (create_tags (some name) svc) (hrtime_diff hrtime start) w).map
        fun r => ({ inst with op_metrics := some r.1 }, r.2) := by
  simp only [record_op_latency, hon, hM, if_true]

theorem record_http_op_latency_on {σ : Type} (h : Host σ) (op : Option String) (s : String)
    (inst : lcb_INSTANCE) (start hrtime : Nat) (w : World σ) (M : Meter)
    (hon : inst.settings.op_metrics_enabled = true) (hM : inst.op_metrics = some M) :
    record_http_op_latency h op (some s) inst start hrtime w =
      (M.record h s (create_tags op (some s)) (hrtime_diff hrtime start) w).map
        fun r => ({ inst with op_metrics := some r.1 }, r.2) := by
  simp only [record_http_op_latency, hon, hM, if_true]

theorem set_append_last {α : Type} (l : List α) (x y : α) :
    (l ++ [x]).set l.length y = l ++ [y] := by
  induction l with
  | nil => rfl
  | cons a as ih => simp [ih]

theorem Meter.record_aggregating_found {σ : Type} (h : Host σ) (m : AggregatingMeter)
    (name : String) (tags : List tag) (v : Nat) (w : World σ) (i : Nat)
    (r : AggregatingValueRecorder)
    (hf : find_if (fun r => name == r.name) m.valueRecorders_ = some i)
    (hr : m.valueRecorders_[i]? = some r) :
    Meter.record h (.aggregating m) name tags v w = some
      (.aggregating { m with valueRecorders_ := m.valueRecorders_.set i (r.recordValue v) }, w) := by
  simp only [Meter.record, Meter.valueRecorder, AggregatingMeter.valueRecorder, hf,
    Meter.recordValue, hr]

theorem Meter.record_aggregating_new {σ : Type} (h : Host σ) (m : AggregatingMeter)
    (name : String) (tags : List tag) (v : Nat) (w : World σ)
    (hf : find_if (fun r => name == r.name) m.valueRecorders_ = none) :
    Meter.record h (.aggregating m) name tags v w = some
      (.aggregating { m with valueRecorders_ := m.valueRecorders_ ++ [⟨name, tags, ⟨[v]⟩⟩] },
        w) := by
  have hget : (m.valueRecorders_ ++ [AggregatingValueRecorder.create name tags])[
      m.valueRecorders_.length]? = some (AggregatingValueRecorder.create name tags) := by
    simp
  simp only [Meter.record, Meter.valueRecorder, AggregatingMeter.valueRecorder, hf,
    Meter.recordValue, hget, set_append_last]
  rfl

theorem Meter.record_custom_found {σ : Type} (h : Host σ) (m : CustomMeter) (name : String)
    (tags : List tag) (v : Nat) (w : World σ) (i : Nat)
    (hf : find_if (fun e => e.1 == name) m.valueRecorders_ = some i) :
    Meter.record h (.custom m) name tags v w =
      match m.valueRecorders_[i]? with
      | none => none
      | some e =>
        match w.foreign.recorders.lookup e.2.recorder_ with
        | none => none
        | some recorder => some (.custom m,
            { foreign := h.record_value recorder.record_value e.2.recorder_ v w.foreign,
              calls := w.calls ++ [Call.record_value recorder.record_value e.2.recorder_ v] }) := by
  simp only [Meter.record, Meter.valueRecorder, CustomMeter.valueRecorder_found h m name tags w i hf,
    Option.map_some', Meter.recordValue]
  cases m.valueRecorders_[i]? with
  | none => rfl
  | some e =>
    simp only [CustomValueRecorder.recordValue]
    cases w.foreign.recorders.lookup e.2.recorder_ <;> rfl

theorem Meter.record_custom_untagged {σ : Type} (h : Host σ) (m : CustomMeter)
    (name : String) (v : Nat) (w : World σ)
    (hf : find_if (fun e => e.1 == name) m.valueRecorders_ = none) :
    Meter.record h (.custom m) name [] v w = none := by
  simp only [Meter.record, Meter.valueRecorder, CustomMeter.valueRecorder_untagged h m name w hf,
    Option.map_none']

theorem Meter.record_custom_new {σ : Type} (h : Host σ) (m : CustomMeter) (name : String)
    (tags : List tag) (v : Nat) (w : World σ) (hne : tags ≠ [])
    (hf : find_if (fun e => e.1 == name) m.valueRecorders_ = none) :
    Meter.record h (.custom m) name tags v w =
      match w.foreign.meters.lookup m.meter_ with
      | none => none
      | some meter =>
        match (h.new_recorder meter.new_recorder m.meter_ name
            (front_ptr (tags.map fun t => ⟨t.key, t.value⟩)) tags.length
            w.foreign).2.recorders.lookup (h.new_recorder meter.new_recorder m.meter_ name
            (front_ptr (tags.map fun t => ⟨t.key, t.value⟩)) tags.length w.foreign).1 with
        | none => none
        | some recorder => some
          (.custom { m with valueRecorders_ := m.valueRecorders_ ++ [(name, ⟨(h.new_recorder
              meter.new_recorder m.meter_ name (front_ptr (tags.map fun t => ⟨t.key, t.value⟩))
              tags.length w.foreign).1⟩)] },
            { foreign := h.record_value recorder.record_value (h.new_recorder
                meter.new_recorder m.meter_ name (front_ptr (tags.map fun t => ⟨t.key, t.value⟩))
                tags.length w.foreign).1 v (h.new_recorder meter.new_recorder m.meter_ name
                (front_ptr (tags.map fun t => ⟨t.key, t.value⟩)) tags.length w.foreign).2,
              calls := w.calls ++ [Call.new_recorder meter.new_recorder m.meter_ name
                  (front_ptr (tags.map fun t => ⟨t.key, t.value⟩)) tags.length] ++
                [Call.record_value recorder.record_value (h.new_recorder meter.new_recorder
                  m.meter_ name (front_ptr (tags.map fun t => ⟨t.key, t.value⟩)) tags.length
                  w.foreign).1 v] }) := by
  cases hm : w.foreign.meters.lookup m.meter_ with
  | none =>
    have hfp := front_ptr_map (fun t : tag => lcbmetrics_TAG.mk t.key t.value) tags hne
    simp only [Meter.record, Meter.valueRecorder, CustomMeter.valueRecorder, hf, hm, hfp,
      Option.map_none']
  | some meter =>
    have hv := CustomMeter.valueRecorder_new h m name tags w meter hne hf hm
    have hget : ∀ p : Nat, (m.valueRecorders_ ++ [(name, CustomValueRecorder.mk p)])[
        m.valueRecorders_.length]? = some (name, ⟨p⟩) := by
      intro p
      simp
    simp only [Meter.record, Meter.valueRecorder, hv, Option.map_some', Meter.recordValue, hget,
      CustomValueRecorder.recordValue]
    split <;> rename_i hl <;> simp [hl]

/-- The foreign calls a `valueRecorder(name, tags).recordValue(v)` adds, if
it returns: record-value calls, and create-recorder calls with this name, the
array of these tags and their number. -/
theorem Meter.record_calls {σ : Type} (h : Host σ) (M : Meter) (name : String)
    (tags : List tag) (v : Nat) (w : World σ) (r : Meter × World σ)
    (hr : M.record h name tags v w = some r) :
    ∃ d, r.2.calls = w.calls ++ d ∧ ∀ c ∈ d, c.is_record_value = true ∨
      ∃ fn p, c = Call.new_recorder fn p name (front_ptr (tags.map fun t => ⟨t.key, t.value⟩))
        tags.length := by
  cases M with
  | aggregating m =>
    refine ⟨[], ?_, by simp⟩
    cases hf : find_if (fun r => name == r.name) m.valueRecorders_ with
    | some i =>
      obtain ⟨x, hx, _⟩ := find_if_get _ _ _ hf
      rw [Meter.record_aggregating_found h m name tags v w i x hf hx] at hr
      rw [← Option.some.inj hr, List.append_nil]
    | none =>
      rw [Meter.record_aggregating_new h m name tags v w hf] at hr
      rw [← Option.some.inj hr, List.append_nil]
  | custom m =>
    cases hf : find_if (fun e => e.1 == name) m.valueRecorders_ with
    | some i =>
      rw [Meter.record_custom_found h m name tags v w i hf] at hr
      split at hr
      · exact Option.noConfusion hr
      · split at hr
        · exact Option.noConfusion hr
        · rw [← Option.some.inj hr]
          exact ⟨_, rfl, fun c hc => Or.inl (by rw [List.mem_singleton.mp hc]; rfl)⟩
    | none =>
      have hne : tags ≠ [] := by
        rintro rfl
        rw [Meter.record_custom_untagged h m name v w hf] at hr
        exact Option.noConfusion hr
      rw [Meter.record_custom_new h m name tags v w hne hf] at hr
      split at hr
      · exact Option.noConfusion hr
      · split at hr
        · exact Option.noConfusion hr
        · rw [← Option.some.inj hr]
          refine ⟨_, List.append_assoc _ _ _, fun c hc => ?_⟩
          simp only [List.singleton_append, List.mem_cons, List.mem_singleton,
            List.not_mem_nil, or_false] at hc
          rcases hc with rfl | rfl
          · exact Or.inr ⟨_, _, rfl⟩
          · exact Or.inl rfl

theorem AggregatingMeter.find_none_of_names (m : AggregatingMeter) (name : String)
    (hn : ∀ x ∈ m.valueRecorders_, x.name ≠ name) :
    find_if (fun r => name == r.name) m.valueRecorders_ = none := by
  rw [find_if_none_iff]
  intro x hx
  simpa using fun hc : name = x.name => hn x hx hc.symm

theorem lookup_append_self {α : Type} (k : Nat) (v : α) (l : List (Nat × α)) :
    ((l ++ [(k, v)]).lookup k).isSome = true := by
  induction l with
  | nil => simp [List.lookup]
  | cons e es ih =>
    obtain ⟨a, b⟩ := e
    rw [List.cons_append, List.lookup_cons]
    cases k == a
    · exact ih
    · rfl

theorem sample_host_returns_allocated : sample_host.returns_allocated := by
  intro fn meter name tags n f
  exact lookup_append_self _ _ _

/-- C12: when the instance's `op_metrics_enabled` is off or it has no meter,
the three entry points return with the instance, its meter and the world as
they were: no recorder is created, no value recorded, no foreign call made.
When the flag is on and a meter is present, `record_kv_op_latency` with an
operation name records exactly one value in exactly one recorder: on an
aggregating meter the recorder named by the operation gets one more sample and
nothing else changes; on an external meter (handles allocated) exactly one
record-value call is made, after at most one create-recorder call. -/
theorem C12_enable_flag_gates_recording {σ : Type} (h : Host σ) (op svc : Option String)
    (response_op : lcb_STORE_OPERATION) (inst : lcb_INSTANCE) (start hrtime : Nat)
    (w : World σ) :
    ((inst.settings.op_metrics_enabled = false ∨ inst.op_metrics = none) →
      record_kv_op_latency h op inst start hrtime w = some (inst, w) ∧
      record_kv_op_latency_store h inst start hrtime response_op w = some (inst, w) ∧
      record_http_op_latency h op svc inst start hrtime w = some (inst, w)) ∧
    (∀ (m : AggregatingMeter) (name : String), inst.settings.op_metrics_enabled = true →
      inst.op_metrics = some (.aggregating m) → op = some name →
      ∃ r, (m.valueRecorder name (create_tags op (some "kv"))).1.valueRecorders_[
          (m.valueRecorder name (create_tags op (some "kv"))).2]? = some r ∧
        r.name = name ∧
        lcb_histogram_count (lcb_histogram_record r.histogram_ (hrtime_diff hrtime start)) =
          lcb_histogram_count r.histogram_ + 1 ∧
        record_kv_op_latency h op inst start hrtime w = some
          ({ inst with op_metrics := some (.aggregating
              { (m.valueRecorder name (create_tags op (some "kv"))).1 with
                valueRecorders_ :=
                  (m.valueRecorder name (create_tags op (some "kv"))).1.valueRecorders_.set
                    (m.valueRecorder name (create_tags op (some "kv"))).2
                    { r with histogram_ :=
                      lcb_histogram_record r.histogram_ (hrtime_diff hrtime start) } }) },
            w)) ∧
    (∀ (m : CustomMeter) (name : String), inst.settings.op_metrics_enabled = true →
      inst.op_metrics = some (.custom m) → op = some name →
      (Meter.custom m).ready h w → (Meter.custom m).handles_allocated w →
      h.returns_allocated →
      ∃ inst1 w1 d fn p, record_kv_op_latency h op inst start hrtime w = some (inst1, w1) ∧
        w1.calls = w.calls ++ d ++ [Call.record_value fn p (hrtime_diff hrtime start)] ∧
        d.length ≤ 1 ∧ ∀ c ∈ d, c.is_record_value = false) := by
  refine ⟨?_, ?_, ?_⟩
  · intro hoff
    exact ⟨record_op_latency_off h op (some "kv") inst start hrtime w hoff,
      record_op_latency_off h (some (op_name_from_store_operation response_op)) (some "kv")
        inst start hrtime w hoff,
      record_http_op_latency_off h op svc inst start hrtime w hoff⟩
  · rintro m name hon hM rfl
    have hrec := record_op_latency_on h name (some "kv") inst start hrtime w _ hon hM
    cases hf : find_if (fun r => name == r.name) m.valueRecorders_ with
    | some i =>
      obtain ⟨x, hx, hp⟩ := find_if_get _ _ _ hf
      have hvr : m.valueRecorder name (create_tags (some name) (some "kv")) = (m, i) := by
        simp only [AggregatingMeter.valueRecorder, hf]
      rw [hvr]
      refine ⟨x, hx, (beq_iff_eq.mp hp).symm, by simp [lcb_histogram_count, lcb_histogram_record],
        ?_⟩
      rw [record_kv_op_latency, hrec, Meter.record_aggregating_found h m name _ _ w i x hf hx]
      rfl
    | none =>
      have hvr : m.valueRecorder name (create_tags (some name) (some "kv")) =
          ({ m with valueRecorders_ := m.valueRecorders_ ++
            [AggregatingValueRecorder.create name (create_tags (some name) (some "kv"))] },
            m.valueRecorders_.length) := by
        simp only [AggregatingMeter.valueRecorder, hf]
      rw [hvr]
      refine ⟨AggregatingValueRecorder.create name (create_tags (some name) (some "kv")),
        by simp, rfl, by simp [lcb_histogram_count, lcb_histogram_record], ?_⟩
      rw [record_kv_op_latency, hrec, Meter.record_aggregating_new h m name _ _ w hf]
      simp only [Option.map_some', set_append_last]
      rfl
  · rintro m name hon hM rfl ⟨hlive, _⟩ hall hret
    have hrec := record_op_latency_on h name (some "kv") inst start hrtime w _ hon hM
    cases hf : find_if (fun e => e.1 == name) m.valueRecorders_ with
    | some i =>
      obtain ⟨e, he, _⟩ := find_if_get _ _ _ hf
      obtain ⟨recorder, hl⟩ := Option.isSome_iff_exists.mp (hall e (List.getElem?_mem he))
      have hres : record_kv_op_latency h (some name) inst start hrtime w = some
          ({ inst with op_metrics := some (.custom m) },
            { foreign := h.record_value recorder.record_value e.2.recorder_
                (hrtime_diff hrtime start) w.foreign,
              calls := w.calls ++ [Call.record_value recorder.record_value e.2.recorder_
                (hrtime_diff hrtime start)] }) := by
        rw [record_kv_op_latency, hrec, Meter.record_custom_found h m name _ _ w i hf]
        simp only [he, hl, Option.map_some']
      exact ⟨_, _, [], recorder.record_value, e.2.recorder_, hres, by simp, by simp, by simp⟩
    | none =>
      obtain ⟨meter, hm⟩ := Option.isSome_iff_exists.mp hlive
      obtain ⟨recorder, hl⟩ := Option.isSome_iff_exists.mp
        (hret meter.new_recorder m.meter_ name
          (front_ptr ((create_tags (some name) (some "kv")).map fun t => ⟨t.key, t.value⟩))
          (create_tags (some name) (some "kv")).length w.foreign)
      have hres := (rfl : record_kv_op_latency h (some name) inst start hrtime w = _)
      conv at hres =>
        rhs
        rw [record_kv_op_latency, hrec, Meter.record_custom_new h m name
          (create_tags (some name) (some "kv")) _ w (List.cons_ne_nil _ _) hf]
        simp only [hm, hl, Option.map_some']
      refine ⟨_, _, [Call.new_recorder meter.new_recorder m.meter_ name
          (front_ptr ((create_tags (some name) (some "kv")).map fun t => ⟨t.key, t.value⟩))
          (create_tags (some name) (some "kv")).length], recorder.record_value, _, hres, rfl,
        by simp, ?_⟩
      intro c hc
      rw [List.mem_singleton.mp hc]
      rfl

/-- C12, with the flag off on an instance with an aggregating meter, and with
the flag on on an instance with an external meter. -/
theorem C12_enable_flag_gates_recording_witness :
    record_kv_op_latency sample_host (some "get")
        ⟨⟨false, 10⟩, some (.aggregating (AggregatingMeter.create ⟨false, 10⟩ 0))⟩ 0 5000
        sample_world =
      some (⟨⟨false, 10⟩, some (.aggregating (AggregatingMeter.create ⟨false, 10⟩ 0))⟩,
        sample_world) ∧
    ((Meter.custom (CustomMeter.create 1)).ready sample_host sample_world ∧
      (Meter.custom (CustomMeter.create 1)).handles_allocated sample_world ∧
      sample_host.returns_allocated) ∧
    ∃ inst1 w1 d fn p, record_kv_op_latency sample_host (some "get")
        ⟨⟨true, 10⟩, some (.custom (CustomMeter.create 1))⟩ 0 5000 sample_world =
        some (inst1, w1) ∧
      w1.calls = sample_world.calls ++ d ++ [Call.record_value fn p (hrtime_diff 5000 0)] ∧
      d.length ≤ 1 ∧ ∀ c ∈ d, c.is_record_value = false :=
  have hr : (Meter.custom (CustomMeter.create 1)).ready sample_host sample_world :=
    ⟨rfl, fun _ _ _ _ _ _ => rfl⟩
  have ha : (Meter.custom (CustomMeter.create 1)).handles_allocated sample_world :=
    fun _ he => absurd he (List.not_mem_nil _)
  ⟨((C12_enable_flag_gates_recording sample_host (some "get") none .LCB_STORE_UPSERT
      ⟨⟨false, 10⟩, some (.aggregating (AggregatingMeter.create ⟨false, 10⟩ 0))⟩ 0 5000
      sample_world).1 (Or.inl rfl)).1,
    ⟨hr, ha, sample_host_returns_allocated⟩,
    (C12_enable_flag_gates_recording sample_host (some "get") none .LCB_STORE_UPSERT
      ⟨⟨true, 10⟩, some (.custom (CustomMeter.create 1))⟩ 0 5000 sample_world).2.2
      (CustomMeter.create 1) "get" rfl rfl rfl hr ha sample_host_returns_allocated⟩

theorem create_tags_service (op : Option String) (s : String) :
    ∃ rest, create_tags op (some s) = ⟨"db.couchbase.service", s⟩ :: rest := by
  cases op with
  | none => exact ⟨[], rfl⟩
  | some o => exact ⟨[⟨"db.operation", o⟩], rfl⟩

theorem Meter.record_service_first {σ : Type} (h : Host σ) (M : Meter) (name : String)
    (op : Option String) (s : String) (v : Nat) (w : World σ) (r : Meter × World σ)
    (hr : M.record h name (create_tags op (some s)) v w = some r) :
    ∃ d, r.2.calls = w.calls ++ d ∧ ∀ c ∈ d, c.service_first := by
  obtain ⟨d, hd, hall⟩ := Meter.record_calls h M name _ v w r hr
  refine ⟨d, hd, fun c hc => ?_⟩
  rcases hall c hc with hv | ⟨fn, p, rfl⟩
  · cases c with
    | record_value _ _ _ => exact trivial
    | new_recorder _ _ _ _ _ => exact Bool.noConfusion hv
  · obtain ⟨rest, hrest⟩ := create_tags_service op s
    rw [hrest]
    exact ⟨s, rest.map (fun t : tag => lcbmetrics_TAG.mk t.key t.value), rfl, by simp⟩

theorem record_op_latency_service_first {σ : Type} (h : Host σ) (op : Option String)
    (s : String) (inst : lcb_INSTANCE) (start hrtime : Nat) (w : World σ)
    (r : lcb_INSTANCE × World σ)
    (hr : record_op_latency h op (some s) inst start hrtime w = some r) :
    ∃ d, r.2.calls = w.calls ++ d ∧ ∀ c ∈ d, c.service_first := by
  by_cases hon : inst.settings.op_metrics_enabled = true
  · cases hM : inst.op_metrics with
    | none =>
      rw [record_op_latency_off h op _ inst start hrtime w (Or.inr hM)] at hr
      rw [← Option.some.inj hr]
      exact ⟨[], by simp, by simp⟩
    | some M =>
      cases op with
      | none =>
        simp only [record_op_latency, hon, hM, if_true] at hr
        exact Option.noConfusion hr
      | some name =>
        rw [record_op_latency_on h name _ inst start hrtime w M hon hM] at hr
        obtain ⟨r0, hr0, hrr⟩ := Option.map_eq_some'.mp hr
        obtain ⟨d, hd, hall⟩ := Meter.record_service_first h M name _ s _ w r0 hr0
        rw [← hrr]
        exact ⟨d, hd, hall⟩
  · rw [record_op_latency_off h op _ inst start hrtime w
      (Or.inl (Bool.not_eq_true _ |>.mp hon))] at hr
    rw [← Option.some.inj hr]
    exact ⟨[], by simp, by simp⟩

theorem record_http_op_latency_service_first {σ : Type} (h : Host σ) (op svc : Option String)
    (inst : lcb_INSTANCE) (start hrtime : Nat) (w : World σ) (r : lcb_INSTANCE × World σ)
    (hr : record_http_op_latency h op svc inst start hrtime w = some r) :
    ∃ d, r.2.calls = w.calls ++ d ∧ ∀ c ∈ d, c.service_first := by
  have hnone : ∀ x : lcb_INSTANCE × World σ, some (inst, w) = some x →
      ∃ d, x.2.calls = w.calls ++ d ∧ ∀ c ∈ d, c.service_first := by
    intro x hx
    rw [← Option.some.inj hx]
    exact ⟨[], by simp, by simp⟩
  cases svc with
  | none => exact hnone r hr
  | some s =>
    by_cases hon : inst.settings.op_metrics_enabled = true
    · cases hM : inst.op_metrics with
      | none =>
        rw [record_http_op_latency_off h op _ inst start hrtime w (Or.inr hM)] at hr
        exact hnone r hr
      | some M =>
        rw [record_http_op_latency_on h op s inst start hrtime w M hon hM] at hr
        obtain ⟨r0, hr0, hrr⟩ := Option.map_eq_some'.mp hr
        obtain ⟨d, hd, hall⟩ := Meter.record_service_first h M s op s _ w r0 hr0
        rw [← hrr]
        exact ⟨d, hd, hall⟩
    · rw [record_http_op_latency_off h op _ inst start hrtime w
        (Or.inl (Bool.not_eq_true _ |>.mp hon))] at hr
      exact hnone r hr

/-- C14: the tag set the key-value entry points pass starts with
`db.couchbase.service=kv`, for every `op`, null or not, and the one
`record_http_op_latency` passes starts with `db.couchbase.service=svc` whenever
it issues a call, that is when `svc` is not null; the name passed is `op`
itself for `record_kv_op_latency`, the store operation name for
`record_kv_op_latency_store` and `svc` for `record_http_op_latency`, a string
in each case. Hence every create-recorder call these entry points cause on an
external meter carries a tag array with a first element, the service tag. -/
theorem C14_entry_points_pass_service_tag {σ : Type} (h : Host σ) (op svc : Option String)
    (response_op : lcb_STORE_OPERATION) (inst : lcb_INSTANCE) (start hrtime : Nat)
    (w : World σ) :
    (∃ rest, create_tags op (some "kv") = ⟨"db.couchbase.service", "kv"⟩ :: rest) ∧
    (∃ rest, create_tags (some (op_name_from_store_operation response_op)) (some "kv") =
      ⟨"db.couchbase.service", "kv"⟩ :: rest) ∧
    (∀ s, svc = some s → ∃ rest, create_tags op svc = ⟨"db.couchbase.service", s⟩ :: rest) ∧
    (∀ (M : Meter) (name : String), inst.settings.op_metrics_enabled = true →
      inst.op_metrics = some M → op = some name →
      record_kv_op_latency h op inst start hrtime w =
        (M.record h name (create_tags op (some "kv")) (hrtime_diff hrtime start) w).map
          fun r => ({ inst with op_metrics := some r.1 }, r.2)) ∧
    (∀ (M : Meter), inst.settings.op_metrics_enabled = true → inst.op_metrics = some M →
      record_kv_op_latency_store h inst start hrtime response_op w =
        (M.record h (op_name_from_store_operation response_op)
          (create_tags (some (op_name_from_store_operation response_op)) (some "kv"))
          (hrtime_diff hrtime start) w).map
          fun r => ({ inst with op_metrics := some r.1 }, r.2)) ∧
    (∀ (M : Meter) (s : String), inst.settings.op_metrics_enabled = true →
      inst.op_metrics = some M → svc = some s →
      record_http_op_latency h op svc inst start hrtime w =
        (M.record h s (create_tags op svc) (hrtime_diff hrtime start) w).map
          fun r => ({ inst with op_metrics := some r.1 }, r.2)) ∧
    (svc = none → record_http_op_latency h op svc inst start hrtime w = some (inst, w)) ∧
    (∀ r, record_kv_op_latency h op inst start hrtime w = some r →
      ∃ d, r.2.calls = w.calls ++ d ∧ ∀ c ∈ d, c.service_first) ∧
    (∀ r, record_kv_op_latency_store h inst start hrtime response_op w = some r →
      ∃ d, r.2.calls = w.calls ++ d ∧ ∀ c ∈ d, c.service_first) ∧
    (∀ r, record_http_op_latency h op svc inst start hrtime w = some r →
      ∃ d, r.2.calls = w.calls ++ d ∧ ∀ c ∈ d, c.service_first) := by
  refine ⟨create_tags_service op "kv", create_tags_service _ "kv", ?_, ?_, ?_, ?_, ?_, ?_, ?_, ?_⟩
  · rintro s rfl
    exact create_tags_service op s
  · rintro M name hon hM rfl
    exact record_op_latency_on h name (some "kv") inst start hrtime w M hon hM
  · intro M hon hM
    exact record_op_latency_on h _ (some "kv") inst start hrtime w M hon hM
  · rintro M s hon hM rfl
    exact record_http_op_latency_on h op s inst start hrtime w M hon hM
  · rintro rfl
    rfl
  · intro r hr
    exact record_op_latency_service_first h op "kv" inst start hrtime w r hr
  · intro r hr
    exact record_op_latency_service_first h (some (op_name_from_store_operation response_op))
      "kv" inst start hrtime w r hr
  · intro r hr
    exact record_http_op_latency_service_first h op svc inst start hrtime w r hr

/-- C14, at a store operation and at a query on a new external meter: the
create-recorder calls made carry the service tag first. -/
theorem C14_entry_points_pass_service_tag_witness :
    (∃ d, (World.mk (sample_host.record_value 7 100 5000
          (sample_host.new_recorder 5 1 "upsert"
            (some [⟨"db.couchbase.service", "kv"⟩, ⟨"db.operation", "upsert"⟩]) 2
            sample_world.foreign).2)
        [Call.new_recorder 5 1 "upsert"
          (some [⟨"db.couchbase.service", "kv"⟩, ⟨"db.operation", "upsert"⟩]) 2,
          Call.record_value 7 100 5000]).calls = sample_world.calls ++ d ∧
      ∀ c ∈ d, c.service_first) ∧
    record_http_op_latency sample_host (some "select") none
        ⟨⟨true, 10⟩, some (.custom (CustomMeter.create 1))⟩ 0 5000 sample_world =
      some (⟨⟨true, 10⟩, some (.custom (CustomMeter.create 1))⟩, sample_world) :=
  ⟨(C14_entry_points_pass_service_tag sample_host (some "select") none .LCB_STORE_UPSERT
      ⟨⟨true, 10⟩, some (.custom (CustomMeter.create 1))⟩ 0 5000 sample_world).2.2.2.2.2.2.2.2.1
      (⟨⟨true, 10⟩, some (.custom ⟨1, [("upsert", ⟨100⟩)]⟩)⟩, _) rfl,
    (C14_entry_points_pass_service_tag sample_host (some "select") none .LCB_STORE_UPSERT
      ⟨⟨true, 10⟩, some (.custom (CustomMeter.create 1))⟩ 0 5000 sample_world).2.2.2.2.2.2.1 rfl⟩

/-- C15: with metrics enabled on an aggregating meter, `record_kv_op_latency`
records into the recorder named by the operation, created on first use with
the tags `db.couchbase.service=kv`, `db.operation=op`; the store entry point
does so under the name `op_name_from_store_operation` gives (insert, replace,
append, prepend, upsert, otherwise unknown); `record_http_op_latency` records
into the recorder named by the service, so that two operations of one service
recorded one after the other end up in one recorder, which keeps the tag
`db.operation` of the first. -/
theorem C15_kv_by_operation_http_by_service {σ : Type} (h : Host σ) (settings : lcb_settings)
    (m : AggregatingMeter) (start hrtime start2 hrtime2 : Nat) (w : World σ)
    (hon : settings.op_metrics_enabled = true) :
    (∀ op : String, (∀ x ∈ m.valueRecorders_, x.name ≠ op) →
      record_kv_op_latency h (some op) ⟨settings, some (.aggregating m)⟩ start hrtime w = some
        (⟨settings, some (.aggregating { m with valueRecorders_ := m.valueRecorders_ ++
          [⟨op, [⟨"db.couchbase.service", "kv"⟩, ⟨"db.operation", op⟩],
            ⟨[hrtime_diff hrtime start]⟩⟩] })⟩, w)) ∧
    (∀ (op : String) (i : Nat), find_if (fun r => op == r.name) m.valueRecorders_ = some i →
      ∃ r, m.valueRecorders_[i]? = some r ∧ r.name = op ∧
        record_kv_op_latency h (some op) ⟨settings, some (.aggregating m)⟩ start hrtime w = some
          (⟨settings, some (.aggregating { m with valueRecorders_ :=
            (m.valueRecorders_.set i (r.recordValue (hrtime_diff hrtime start))) })⟩, w)) ∧
    (∀ response_op : lcb_STORE_OPERATION,
      record_kv_op_latency_store h ⟨settings, some (.aggregating m)⟩ start hrtime response_op w =
        record_kv_op_latency h (some (op_name_from_store_operation response_op))
          ⟨settings, some (.aggregating m)⟩ start hrtime w) ∧
    (op_name_from_store_operation .LCB_STORE_INSERT = "insert" ∧
      op_name_from_store_operation .LCB_STORE_REPLACE = "replace" ∧
      op_name_from_store_operation .LCB_STORE_APPEND = "append" ∧
      op_name_from_store_operation .LCB_STORE_PREPEND = "prepend" ∧
      op_name_from_store_operation .LCB_STORE_UPSERT = "upsert" ∧
      ∀ n, op_name_from_store_operation (.other n) = "unknown") ∧
    (∀ svc op1 op2 : String, (∀ x ∈ m.valueRecorders_, x.name ≠ svc) →
      record_http_op_latency h (some op1) (some svc) ⟨settings, some (.aggregating m)⟩
          start hrtime w = some
        (⟨settings, some (.aggregating { m with valueRecorders_ := m.valueRecorders_ ++
          [⟨svc, [⟨"db.couchbase.service", svc⟩, ⟨"db.operation", op1⟩],
            ⟨[hrtime_diff hrtime start]⟩⟩] })⟩, w) ∧
      record_http_op_latency h (some op2) (some svc)
          ⟨settings, some (.aggregating { m with valueRecorders_ := m.valueRecorders_ ++
            [⟨svc, [⟨"db.couchbase.service", svc⟩, ⟨"db.operation", op1⟩],
              ⟨[hrtime_diff hrtime start]⟩⟩] })⟩ start2 hrtime2 w = some
        (⟨settings, some (.aggregating { m with valueRecorders_ := m.valueRecorders_ ++
          [⟨svc, [⟨"db.couchbase.service", svc⟩, ⟨"db.operation", op1⟩],
            ⟨[hrtime_diff hrtime start, hrtime_diff hrtime2 start2]⟩⟩] })⟩, w)) := by
  refine ⟨?_, ?_, fun _ => rfl, ⟨rfl, rfl, rfl, rfl, rfl, fun _ => rfl⟩, ?_⟩
  · intro op hn
    have hf := AggregatingMeter.find_none_of_names m op hn
    rw [record_kv_op_latency, record_op_latency_on h op (some "kv") _ start hrtime w
      (.aggregating m) hon rfl, Meter.record_aggregating_new h m op _ _ w hf]
    rfl
  · intro op i hf
    obtain ⟨x, hx, hp⟩ := find_if_get _ _ _ hf
    refine ⟨x, hx, (beq_iff_eq.mp hp).symm, ?_⟩
    rw [record_kv_op_latency, record_op_latency_on h op (some "kv") _ start hrtime w
      (.aggregating m) hon rfl, Meter.record_aggregating_found h m op _ _ w i x hf hx]
    rfl
  · intro svc op1 op2 hn
    have hf := AggregatingMeter.find_none_of_names m svc hn
    constructor
    · rw [record_http_op_latency_on h (some op1) svc _ start hrtime w (.aggregating m) hon rfl,
        Meter.record_aggregating_new h m svc _ _ w hf]
      rfl
    · have hf2 : find_if (fun r => svc == r.name)
          (m.valueRecorders_ ++ [(⟨svc, [⟨"db.couchbase.service", svc⟩, ⟨"db.operation", op1⟩],
            ⟨[hrtime_diff hrtime start]⟩⟩ : AggregatingValueRecorder)]) =
          some m.valueRecorders_.length := by
        rw [find_if_append_none _ _ _ hf]
        simp [find_if, AggregatingValueRecorder.name]
      have hget : (m.valueRecorders_ ++ [(⟨svc, [⟨"db.couchbase.service", svc⟩,
          ⟨"db.operation", op1⟩], ⟨[hrtime_diff hrtime start]⟩⟩ : AggregatingValueRecorder)])[
          m.valueRecorders_.length]? = some ⟨svc, [⟨"db.couchbase.service", svc⟩,
          ⟨"db.operation", op1⟩], ⟨[hrtime_diff hrtime start]⟩⟩ := by
        simp
      rw [record_http_op_latency_on h (some op2) svc _ start2 hrtime2 w _ hon rfl,
        Meter.record_aggregating_found h _ svc _ _ w _ _ hf2 hget]
      simp only [Option.map_some', set_append_last]
      rfl

/-- C15, at a new aggregating meter and the service `query`. -/
theorem C15_kv_by_operation_http_by_service_witness :
    (⟨true, 10⟩ : lcb_settings).op_metrics_enabled = true ∧
    (∀ x ∈ (AggregatingMeter.create ⟨true, 10⟩ 0).valueRecorders_, x.name ≠ "query") ∧
    record_http_op_latency sample_host (some "upsert") (some "query")
        ⟨⟨true, 10⟩, some (.aggregating { AggregatingMeter.create ⟨true, 10⟩ 0 with
          valueRecorders_ := (AggregatingMeter.create ⟨true, 10⟩ 0).valueRecorders_ ++
            [⟨"query", [⟨"db.couchbase.service", "query"⟩, ⟨"db.operation", "select"⟩],
              ⟨[hrtime_diff 5000 0]⟩⟩] })⟩ 6000 9000 sample_world = some
      (⟨⟨true, 10⟩, some (.aggregating { AggregatingMeter.create ⟨true, 10⟩ 0 with
        valueRecorders_ := (AggregatingMeter.create ⟨true, 10⟩ 0).valueRecorders_ ++
          [⟨"query", [⟨"db.couchbase.service", "query"⟩, ⟨"db.operation", "select"⟩],
            ⟨[hrtime_diff 5000 0, hrtime_diff 9000 6000]⟩⟩] })⟩, sample_world) :=
  have hn : ∀ x ∈ (AggregatingMeter.create ⟨true, 10⟩ 0).valueRecorders_, x.name ≠ "query" :=
    fun _ hx => absurd hx (List.not_mem_nil _)
  ⟨rfl, hn, ((C15_kv_by_operation_http_by_service sample_host ⟨true, 10⟩
    (AggregatingMeter.create ⟨true, 10⟩ 0) 0 5000 6000 9000 sample_world rfl).2.2.2.2
    "query" "select" "upsert" hn).2⟩

end lcb
